import Mathlib

/-!
Verification of the off-chain RWA token ledger (server core).

This file shallowly embeds the token-ledger core of the repository:
the relational state (users, assets, tokens, orders, transfers,
price history) from the drizzle schema, the storage operations of
server/storage.ts, and the mutating route handlers of server/routes.ts
(mint, revoke, order create/fill/cancel, admin approve/reject, admin
token-amount adjustment), together with the KYC middleware of
server/auth.ts.

Modelling conventions:
  - ids are natural numbers; row lookups are List.find? by id, row
    updates are List.map guarded by id equality, mirroring the
    one-row-per-id SQL update/delete statements;
  - monetary decimals (navPrice, costBasis, pricePerToken: SQL
    decimal(18,2)) are integers counting cents; the source computes on
    them with parseFloat/toFixed(2), which is exact for scale-2 values
    in double range, except the per-token division in the order-escrow
    path, embedded here as a rounded integer division (escrowCostBasis);
  - handlers return Except ApiError DB; in the source every res.status(4xx)
    early return precedes the first database write, so an error result
    leaves the database unchanged;
  - notifications and report generation are external sinks with no effect
    on ledger state and are omitted.
-/

inductive KycStatus where
  | PENDING
  | APPROVED
  | REJECTED
deriving Repr, DecidableEq, BEq

inductive Role where
  | ADMIN
  | INVESTOR
deriving Repr, DecidableEq, BEq

inductive OrderStatus where
  | OPEN
  | FILLED
  | CANCELLED
deriving Repr, DecidableEq, BEq

inductive ApprovalStatus where
  | PENDING
  | APPROVED
  | REJECTED
deriving Repr, DecidableEq, BEq

inductive TransferReason where
  | TRANSFER
  | MINT
  | FREEZE
  | UNFREEZE
  | ADMIN_REVOKE
  | TRADE
deriving Repr, DecidableEq, BEq

/-- Row of the users table (fields relevant to the ledger core). -/
structure User where
  id : Nat
  kycStatus : KycStatus
  isFrozen : Bool
  role : Role
deriving Repr, DecidableEq

/-- Row of the assets table; navPrice in cents. -/
structure Asset where
  id : Nat
  totalSupply : Int
  remainingSupply : Int
  navPrice : Int
deriving Repr, DecidableEq

/-- Row of the tokens table; costBasis in cents. -/
structure Token where
  id : Nat
  assetId : Nat
  ownerId : Nat
  amount : Int
  costBasis : Int
deriving Repr, DecidableEq

/-- Row of the orders table; pricePerToken in cents. -/
structure Order where
  id : Nat
  sellerId : Nat
  buyerId : Option Nat
  assetId : Nat
  tokenAmount : Int
  pricePerToken : Int
  status : OrderStatus
  approvalStatus : ApprovalStatus
deriving Repr, DecidableEq

/-- Row of the transfers table (id and timestamp omitted; the list order
is the append order). -/
structure Transfer where
  assetId : Nat
  fromUserId : Option Nat
  toUserId : Option Nat
  tokenAmount : Int
  reason : TransferReason
deriving Repr, DecidableEq

/-- Row of the price_history table; price in cents. -/
structure PriceRecord where
  assetId : Nat
  price : Int
  volume : Int
  orderId : Option Nat
deriving Repr, DecidableEq

/-- The database state. nextTokenId / nextOrderId model the id generator
(gen_random_uuid in the schema): fresh ids for inserted rows. -/
structure DB where
  users : List User
  assets : List Asset
  tokens : List Token
  orders : List Order
  transfers : List Transfer
  priceHistory : List PriceRecord
  nextTokenId : Nat
  nextOrderId : Nat
deriving Repr, DecidableEq

namespace Storage

/-- storage.getUser: select from users where id = ?. -/
def getUser (db : DB) (id : Nat) : Option User :=
  db.users.find? (fun u => u.id == id)

/-- storage.getAsset: select from assets where id = ?. -/
def getAsset (db : DB) (id : Nat) : Option Asset :=
  db.assets.find? (fun a => a.id == id)

/-- storage.getToken: select from tokens where id = ?. -/
def getToken (db : DB) (id : Nat) : Option Token :=
  db.tokens.find? (fun t => t.id == id)

/-- storage.getTokenByAssetAndUser: select from tokens where
assetId = ? and ownerId = ?. -/
def getTokenByAssetAndUser (db : DB) (assetId userId : Nat) : Option Token :=
  db.tokens.find? (fun t => t.assetId == assetId && t.ownerId == userId)

/-- storage.getOrder: select from orders where id = ?. -/
def getOrder (db : DB) (id : Nat) : Option Order :=
  db.orders.find? (fun o => o.id == id)

/-- storage.createToken(assetId, ownerId, amount, costBasis): insert a
new tokens row. Modelled from the spec: the current storage
implementation is absent from src (the storage.ts present is an older
revision without the costBasis argument); the call sites in routes.ts
pass an initial costBasis, and the spec's Token lifecycle says the row
is created with the credited amount and acquisition cost. -/
def createToken (db : DB) (assetId ownerId : Nat) (amount costBasis : Int) : DB :=
  { db with
    tokens := db.tokens ++ [⟨db.nextTokenId, assetId, ownerId, amount, costBasis⟩],
    nextTokenId := db.nextTokenId + 1 }

/-- storage.updateTokenAmount: update tokens set amount = ? where id = ?. -/
def updateTokenAmount (db : DB) (id : Nat) (amount : Int) : DB :=
  { db with
    tokens := db.tokens.map (fun t => if t.id == id then { t with amount := amount } else t) }

/-- storage.updateTokenCostBasis(id, costBasis, amount): update tokens
set cost_basis = ?, amount = ? where id = ?. Modelled from the spec:
the current storage implementation is absent from src; every call site
in routes.ts passes the new cost basis and the new amount for one row. -/
def updateTokenCostBasis (db : DB) (id : Nat) (costBasis amount : Int) : DB :=
  { db with
    tokens := db.tokens.map (fun t =>
      if t.id == id then { t with costBasis := costBasis, amount := amount } else t) }

/-- storage.deleteToken: delete from tokens where id = ?. -/
def deleteToken (db : DB) (id : Nat) : DB :=
  { db with tokens := db.tokens.filter (fun t => t.id != id) }

/-- storage.updateAssetRemainingSupply: update assets set
remaining_supply = ? where id = ?. -/
def updateAssetRemainingSupply (db : DB) (id : Nat) (remainingSupply : Int) : DB :=
  { db with
    assets := db.assets.map (fun a =>
      if a.id == id then { a with remainingSupply := remainingSupply } else a) }

/-- storage.createOrder: insert an orders row with status OPEN and the
schema default approvalStatus PENDING; returns the new row and its id. -/
def createOrder (db : DB) (sellerId assetId : Nat) (tokenAmount pricePerToken : Int) :
    DB × Nat :=
  ({ db with
      orders := db.orders ++
        [⟨db.nextOrderId, sellerId, none, assetId, tokenAmount, pricePerToken,
          OrderStatus.OPEN, ApprovalStatus.PENDING⟩],
      nextOrderId := db.nextOrderId + 1 },
   db.nextOrderId)

/-- storage.updateOrderStatus(id, status, buyerId?): update orders set
status = ? (and buyer_id = ? when a buyerId is passed) where id = ?. -/
def updateOrderStatus (db : DB) (id : Nat) (status : OrderStatus)
    (buyerId : Option Nat) : DB :=
  { db with
    orders := db.orders.map (fun o =>
      if o.id == id then
        { o with status := status,
                 buyerId := match buyerId with | some b => some b | none => o.buyerId }
      else o) }

/-- storage.updateOrderApprovalStatus: update orders set
approval_status = ? where id = ?. Modelled from the spec: the current
storage implementation is absent from src; the spec's
approveOrder/rejectOrder set exactly the approvalStatus field. -/
def updateOrderApprovalStatus (db : DB) (id : Nat) (st : ApprovalStatus) : DB :=
  { db with
    orders := db.orders.map (fun o =>
      if o.id == id then { o with approvalStatus := st } else o) }

/-- storage.createTransfer: append-only insert into transfers. -/
def createTransfer (db : DB) (t : Transfer) : DB :=
  { db with transfers := db.transfers ++ [t] }

/-- storage.createPriceHistory: append-only insert into price_history. -/
def createPriceHistory (db : DB) (assetId : Nat) (price volume : Int)
    (orderId : Option Nat) : DB :=
  { db with priceHistory := db.priceHistory ++ [⟨assetId, price, volume, orderId⟩] }

/-- storage.updateUserFrozenStatus: update users set is_frozen = ?
where id = ?. -/
def updateUserFrozenStatus (db : DB) (id : Nat) (isFrozen : Bool) : DB :=
  { db with
    users := db.users.map (fun u =>
      if u.id == id then { u with isFrozen := isFrozen } else u) }

end Storage

/-- Error outcomes of the route handlers (each constructor is one
distinct res.status(4xx) early return). -/
inductive ApiError where
  | unauthorized
  | kycNotApproved
  | accountFrozen
  | validation
  | notFound
  | insufficientSupply
  | exceedsBalance
  | missingFields
  | insufficientBalance
  | orderNotOpen
  | orderNotApproved
  | selfTrade
  | sellerNotFound
  | sellerIneligible
  | notYourOrder
deriving Repr, DecidableEq, BEq

/-- auth.ts kycApprovedMiddleware (composed with authMiddleware lookup):
the caller must exist, have APPROVED KYC, and not be frozen. -/
def kycApprovedMiddleware (db : DB) (userId : Nat) : Except ApiError User :=
  match Storage.getUser db userId with
  | none => .error .unauthorized
  | some u =>
    if u.kycStatus ≠ KycStatus.APPROVED then .error .kycNotApproved
    else if u.isFrozen then .error .accountFrozen
    else .ok u

/-- POST /api/tokens/mint (routes.ts 228-274). mintTokensSchema requires a
positive integer amount; then the handler checks the asset and user
exist, the recipient KYC is APPROVED, and the remaining supply covers
the amount; credits the (asset, user) token row (create-or-increment),
decrements remainingSupply, and appends one MINT transfer. -/
def mint (db : DB) (assetId userId : Nat) (amount : Int) : Except ApiError DB :=
  if amount ≤ 0 then .error .validation
  else
    match Storage.getAsset db assetId with
    | none => .error .notFound
    | some asset =>
      match Storage.getUser db userId with
      | none => .error .notFound
      | some targetUser =>
        if targetUser.kycStatus ≠ KycStatus.APPROVED then .error .kycNotApproved
        else if asset.remainingSupply < amount then .error .insufficientSupply
        else
          let mintCostBasis := asset.navPrice * amount
          let db1 :=
            match Storage.getTokenByAssetAndUser db assetId userId with
            | some token =>
              Storage.updateTokenCostBasis db token.id
                (token.costBasis + mintCostBasis) (token.amount + amount)
            | none => Storage.createToken db assetId userId amount mintCostBasis
          let db2 := Storage.updateAssetRemainingSupply db1 assetId
            (asset.remainingSupply - amount)
          .ok (Storage.createTransfer db2 ⟨assetId, none, some userId, amount, .MINT⟩)

/-- POST /api/tokens/revoke (routes.ts 276-313). Rejects non-positive
amounts, requires the token row and its asset to exist and the amount
not to exceed the balance; deletes the row when fully revoked, else
decrements; returns amount to remainingSupply; appends one
ADMIN_REVOKE transfer. -/
def revoke (db : DB) (tokenId : Nat) (amount : Int) : Except ApiError DB :=
  if amount ≤ 0 then .error .validation
  else
    match Storage.getToken db tokenId with
    | none => .error .notFound
    | some token =>
      if token.amount < amount then .error .exceedsBalance
      else
        match Storage.getAsset db token.assetId with
        | none => .error .notFound
        | some asset =>
          let db1 :=
            if token.amount = amount then Storage.deleteToken db tokenId
            else Storage.updateTokenAmount db tokenId (token.amount - amount)
          let db2 := Storage.updateAssetRemainingSupply db1 token.assetId
            (asset.remainingSupply + amount)
          .ok (Storage.createTransfer db2
            ⟨token.assetId, some token.ownerId, none, amount, .ADMIN_REVOKE⟩)

/-- toFixed(2) of costBasis / amount * (amount - tokenAmount), in cents:
round-to-nearest (half away from zero is irrelevant here; half up is
used) of an integer fraction with positive denominator. The source
guards the division with amount > 0 and uses 0 per-token cost
otherwise. -/
def escrowCostBasis (costBasis amount tokenAmount : Int) : Int :=
  if 0 < amount then
    Int.fdiv (2 * (costBasis * (amount - tokenAmount)) + amount) (2 * amount)
  else 0

/-- POST /api/marketplace/order (routes.ts 363-406). Behind
kycApprovedMiddleware. The body check (!assetId || !tokenAmount ||
!pricePerToken) rejects exactly the zero numeric values (JS falsiness);
a negative tokenAmount is not rejected. Requires an existing seller
token row with amount >= tokenAmount; debits the escrow from the row
(reducing its cost basis pro rata) and inserts an OPEN, PENDING order.
Returns the new order id. No transfer row is appended. -/
def createOrder (db : DB) (callerId assetId : Nat) (tokenAmount pricePerToken : Int) :
    Except ApiError (DB × Nat) :=
  match kycApprovedMiddleware db callerId with
  | .error e => .error e
  | .ok _ =>
    if tokenAmount = 0 ∨ pricePerToken = 0 then .error .missingFields
    else
      match Storage.getTokenByAssetAndUser db assetId callerId with
      | none => .error .insufficientBalance
      | some token =>
        if token.amount < tokenAmount then .error .insufficientBalance
        else
          let newCostBasis := escrowCostBasis token.costBasis token.amount tokenAmount
          let db1 := Storage.updateTokenCostBasis db token.id newCostBasis
            (token.amount - tokenAmount)
          .ok (Storage.createOrder db1 callerId assetId tokenAmount pricePerToken)

/-- POST /api/marketplace/order/:id/fill (routes.ts 408-476). Behind
kycApprovedMiddleware. Requires the order OPEN, APPROVED, buyer not the
seller, and the seller existing, KYC-approved and not frozen; credits
the buyer token row (create-or-increment, cost basis +=
pricePerToken * tokenAmount), marks the order FILLED with the buyer,
appends one TRADE transfer and one price-history row. Nothing is
returned to the seller. -/
def fillOrder (db : DB) (buyerId orderId : Nat) : Except ApiError DB :=
  match kycApprovedMiddleware db buyerId with
  | .error e => .error e
  | .ok _ =>
    match Storage.getOrder db orderId with
    | none => .error .notFound
    | some order =>
      if order.status ≠ OrderStatus.OPEN then .error .orderNotOpen
      else if order.approvalStatus ≠ ApprovalStatus.APPROVED then .error .orderNotApproved
      else if order.sellerId = buyerId then .error .selfTrade
      else
        match Storage.getUser db order.sellerId with
        | none => .error .sellerNotFound
        | some seller =>
          if seller.kycStatus ≠ KycStatus.APPROVED ∨ seller.isFrozen then
            .error .sellerIneligible
          else
            let tradeCostBasis := order.pricePerToken * order.tokenAmount
            let db1 :=
              match Storage.getTokenByAssetAndUser db order.assetId buyerId with
              | some buyerToken =>
                Storage.updateTokenCostBasis db buyerToken.id
                  (buyerToken.costBasis + tradeCostBasis)
                  (buyerToken.amount + order.tokenAmount)
              | none =>
                Storage.createToken db order.assetId buyerId order.tokenAmount
                  tradeCostBasis
            let db2 := Storage.updateOrderStatus db1 order.id OrderStatus.FILLED
              (some buyerId)
            let db3 := Storage.createTransfer db2
              ⟨order.assetId, some order.sellerId, some buyerId, order.tokenAmount, .TRADE⟩
            .ok (Storage.createPriceHistory db3 order.assetId order.pricePerToken
              order.tokenAmount (some order.id))

/-- POST /api/marketplace/order/:id/cancel (routes.ts 478-505). Behind
kycApprovedMiddleware. Requires the order OPEN and owned by the caller;
credits the escrowed tokenAmount back to the seller row
(create-or-increment) with cost basis tokenAmount * current navPrice
(0 when the asset is missing), and marks the order CANCELLED. No
transfer row is appended. -/
def cancelOrder (db : DB) (callerId orderId : Nat) : Except ApiError DB :=
  match kycApprovedMiddleware db callerId with
  | .error e => .error e
  | .ok _ =>
    match Storage.getOrder db orderId with
    | none => .error .notFound
    | some order =>
      if order.status ≠ OrderStatus.OPEN then .error .orderNotOpen
      else if order.sellerId ≠ callerId then .error .notYourOrder
      else
        let nav := match Storage.getAsset db order.assetId with
          | some a => a.navPrice
          | none => 0
        let returnedCostBasis := nav * order.tokenAmount
        let db1 :=
          match Storage.getTokenByAssetAndUser db order.assetId callerId with
          | some token =>
            Storage.updateTokenCostBasis db token.id
              (token.costBasis + returnedCostBasis) (token.amount + order.tokenAmount)
          | none =>
            Storage.createToken db order.assetId callerId order.tokenAmount
              returnedCostBasis
        .ok (Storage.updateOrderStatus db1 order.id OrderStatus.CANCELLED none)

/-- POST /api/admin/orders/:id/approve (routes.ts 542-563). Requires the
order OPEN; sets approvalStatus APPROVED. -/
def approveOrder (db : DB) (orderId : Nat) : Except ApiError DB :=
  match Storage.getOrder db orderId with
  | none => .error .notFound
  | some order =>
    if order.status ≠ OrderStatus.OPEN then .error .orderNotOpen
    else .ok (Storage.updateOrderApprovalStatus db order.id ApprovalStatus.APPROVED)

/-- POST /api/admin/orders/:id/reject (routes.ts 565-597). Requires the
order OPEN; sets approvalStatus REJECTED and status CANCELLED, then
credits the escrowed tokenAmount back to the seller row
(create-or-increment) with cost basis tokenAmount * current navPrice.
No transfer row is appended. -/
def rejectOrder (db : DB) (orderId : Nat) : Except ApiError DB :=
  match Storage.getOrder db orderId with
  | none => .error .notFound
  | some order =>
    if order.status ≠ OrderStatus.OPEN then .error .orderNotOpen
    else
      let db1 := Storage.updateOrderApprovalStatus db order.id ApprovalStatus.REJECTED
      let db2 := Storage.updateOrderStatus db1 order.id OrderStatus.CANCELLED none
      let nav := match Storage.getAsset db2 order.assetId with
        | some a => a.navPrice
        | none => 0
      let returnedCostBasis := nav * order.tokenAmount
      let db3 :=
        match Storage.getTokenByAssetAndUser db2 order.assetId order.sellerId with
        | some token =>
          Storage.updateTokenCostBasis db2 token.id
            (token.costBasis + returnedCostBasis) (token.amount + order.tokenAmount)
        | none =>
          Storage.createToken db2 order.assetId order.sellerId order.tokenAmount
            returnedCostBasis
      .ok db3

/-- PATCH /api/admin/tokens/:tokenId (routes.ts 1004-1058). Requires a
non-negative integer amount and existing token and asset rows; a
positive difference must not exceed remainingSupply; sets the amount
(deleting the row at zero), rebalances remainingSupply, and when the
difference is nonzero appends one transfer of the absolute difference
whose reason defaults to MINT / ADMIN_REVOKE by the sign. -/
def adminSetTokenAmount (db : DB) (tokenId : Nat) (newAmount : Int)
    (reason : Option TransferReason) : Except ApiError DB :=
  if newAmount < 0 then .error .validation
  else
    match Storage.getToken db tokenId with
    | none => .error .notFound
    | some token =>
      match Storage.getAsset db token.assetId with
      | none => .error .notFound
      | some asset =>
        let difference := newAmount - token.amount
        if 0 < difference ∧ asset.remainingSupply < difference then
          .error .insufficientSupply
        else
          let db1 :=
            if newAmount = 0 then Storage.deleteToken db tokenId
            else Storage.updateTokenAmount db tokenId newAmount
          let db2 := Storage.updateAssetRemainingSupply db1 asset.id
            (asset.remainingSupply - difference)
          if difference ≠ 0 then
            .ok (Storage.createTransfer db2
              ⟨token.assetId,
               if difference < 0 then some token.ownerId else none,
               if 0 < difference then some token.ownerId else none,
               |difference|,
               reason.getD (if 0 < difference then .MINT else .ADMIN_REVOKE)⟩)
          else .ok db2

/-- The mutating ledger operations the claims quantify over. -/
inductive Op where
  | mint (assetId userId : Nat) (amount : Int)
  | revoke (tokenId : Nat) (amount : Int)
  | createOrder (callerId assetId : Nat) (tokenAmount pricePerToken : Int)
  | fillOrder (buyerId orderId : Nat)
  | cancelOrder (callerId orderId : Nat)
  | approveOrder (orderId : Nat)
  | rejectOrder (orderId : Nat)
  | adminSetAmount (tokenId : Nat) (newAmount : Int) (reason : Option TransferReason)
deriving Repr, DecidableEq

/-- Run one ledger operation. -/
def applyOp (op : Op) (db : DB) : Except ApiError DB :=
  match op with
  | .mint a u n => mint db a u n
  | .revoke t n => revoke db t n
  | .createOrder c a n p => (createOrder db c a n p).map Prod.fst
  | .fillOrder b o => fillOrder db b o
  | .cancelOrder c o => cancelOrder db c o
  | .approveOrder o => approveOrder db o
  | .rejectOrder o => rejectOrder db o
  | .adminSetAmount t n r => adminSetTokenAmount db t n r

/-! ## Invariants and observation functions -/

/-- Sum of Token.amount over the rows of one asset. -/
def sumTokens (db : DB) (assetId : Nat) : Int :=
  (db.tokens.map (fun t => if t.assetId == assetId then t.amount else 0)).sum

/-- Sum of tokenAmount over the OPEN orders of one asset (the tokens
held in escrow). -/
def openEscrow (db : DB) (assetId : Nat) : Int :=
  (db.orders.map (fun o =>
    if o.assetId == assetId && o.status == OrderStatus.OPEN then o.tokenAmount else 0)).sum

/-- The sum invariant exactly as the spec states it: for every asset,
the token amounts plus remainingSupply equal totalSupply. -/
def claimedSumInv (db : DB) : Prop :=
  ∀ a ∈ db.assets, sumTokens db a.id + a.remainingSupply = a.totalSupply

/-- The sum invariant corrected for the escrow design: token amounts
plus the amounts escrowed in OPEN orders plus remainingSupply equal
totalSupply. -/
def escrowSumInv (db : DB) : Prop :=
  ∀ a ∈ db.assets, sumTokens db a.id + openEscrow db a.id + a.remainingSupply = a.totalSupply

/-- Structural well-formedness maintained by the database: unique row
ids (primary keys), one tokens row per (assetId, ownerId) pair, and id
counters ahead of every existing row. -/
def WF (db : DB) : Prop :=
  (db.tokens.map Token.id).Nodup ∧
  (db.tokens.map (fun t => (t.assetId, t.ownerId))).Nodup ∧
  (∀ t ∈ db.tokens, t.id < db.nextTokenId) ∧
  (db.orders.map Order.id).Nodup ∧
  (∀ o ∈ db.orders, o.id < db.nextOrderId) ∧
  (db.assets.map Asset.id).Nodup

instance (db : DB) : Decidable (claimedSumInv db) := by
  unfold claimedSumInv; infer_instance

instance (db : DB) : Decidable (escrowSumInv db) := by
  unfold escrowSumInv; infer_instance

instance (db : DB) : Decidable (WF db) := by
  unfold WF; infer_instance

/-- Spendable balance of one (asset, owner) pair: the amount of its
tokens row, 0 when the row is absent. -/
def balance (db : DB) (assetId userId : Nat) : Int :=
  match Storage.getTokenByAssetAndUser db assetId userId with
  | some t => t.amount
  | none => 0

/-- Cost basis of one (asset, owner) pair, 0 when the row is absent. -/
def costBasisOf (db : DB) (assetId userId : Nat) : Int :=
  match Storage.getTokenByAssetAndUser db assetId userId with
  | some t => t.costBasis
  | none => 0

/-- Number of tokens rows for one (asset, owner) pair. -/
def tokenRowCount (db : DB) (assetId userId : Nat) : Nat :=
  (db.tokens.filter (fun t => t.assetId == assetId && t.ownerId == userId)).length

/-- remainingSupply of an asset, 0 when absent. -/
def remainingOf (db : DB) (assetId : Nat) : Int :=
  match Storage.getAsset db assetId with
  | some a => a.remainingSupply
  | none => 0

/-- Current navPrice of an asset, 0 when absent (matching the
parseFloat(asset?.navPrice || "0") fallback of the cancel and reject
handlers). -/
def navOf (db : DB) (assetId : Nat) : Int :=
  match Storage.getAsset db assetId with
  | some a => a.navPrice
  | none => 0

/-- Status of an order, if it exists. -/
def statusOf (db : DB) (orderId : Nat) : Option OrderStatus :=
  (Storage.getOrder db orderId).map Order.status

/-! ## Concrete states used by counterexamples and witnesses -/

/-- One approved investor holding 50 tokens (cost basis 50.00) of an
asset with totalSupply 100, remainingSupply 50, navPrice 1.00. The
spec sum invariant holds here: 50 + 50 = 100. -/
def dbSeed : DB :=
  ⟨[⟨1, .APPROVED, false, .INVESTOR⟩],
   [⟨1, 100, 50, 100⟩],
   [⟨1, 1, 1, 50, 5000⟩],
   [], [], [], 2, 1⟩

/-- dbSeed after the investor places a sell order for 20 tokens at
5.00: the escrow debit leaves 30 tokens and an OPEN order. -/
def dbSeedAfterOrder : DB :=
  ⟨[⟨1, .APPROVED, false, .INVESTOR⟩],
   [⟨1, 100, 50, 100⟩],
   [⟨1, 1, 1, 30, 3000⟩],
   [⟨1, 1, none, 1, 20, 500, .OPEN, .PENDING⟩],
   [], [], 2, 2⟩

/-- Approved but frozen investor who owns an OPEN sell order. -/
def dbFrozenSeller : DB :=
  ⟨[⟨1, .APPROVED, true, .INVESTOR⟩],
   [⟨1, 100, 50, 100⟩],
   [⟨1, 1, 1, 30, 3000⟩],
   [⟨1, 1, none, 1, 20, 500, .OPEN, .PENDING⟩],
   [], [], 2, 2⟩

/-- Approved investor holding exactly 20 tokens (cost basis 10.00). -/
def dbFullBalance : DB :=
  ⟨[⟨1, .APPROVED, false, .INVESTOR⟩],
   [⟨1, 100, 50, 100⟩],
   [⟨1, 1, 1, 20, 1000⟩],
   [], [], [], 2, 1⟩

/-- dbFullBalance after escrowing the whole balance into an order:
the tokens row survives with amount 0. -/
def dbFullBalanceAfter : DB :=
  ⟨[⟨1, .APPROVED, false, .INVESTOR⟩],
   [⟨1, 100, 50, 100⟩],
   [⟨1, 1, 1, 0, 0⟩],
   [⟨1, 1, none, 1, 20, 100, .OPEN, .PENDING⟩],
   [], [], 2, 2⟩

/-- Approved investor holding 10 tokens (cost basis 0). -/
def dbTen : DB :=
  ⟨[⟨1, .APPROVED, false, .INVESTOR⟩],
   [⟨1, 100, 50, 100⟩],
   [⟨1, 1, 1, 10, 0⟩],
   [], [], [], 2, 1⟩

/-- dbTen after createOrder accepted tokenAmount -5: the balance GREW
to 15 and an order over -5 tokens is OPEN. -/
def dbTenAfterNeg : DB :=
  ⟨[⟨1, .APPROVED, false, .INVESTOR⟩],
   [⟨1, 100, 50, 100⟩],
   [⟨1, 1, 1, 15, 0⟩],
   [⟨1, 1, none, 1, -5, 100, .OPEN, .PENDING⟩],
   [], [], 2, 2⟩

instance {ε α : Type} [DecidableEq ε] [DecidableEq α] : DecidableEq (Except ε α) := by
  intro x y
  cases x <;> cases y
  case error.error a b =>
    exact if h : a = b then .isTrue (by rw [h])
      else .isFalse (by intro hc; injection hc; contradiction)
  case error.ok a b => exact .isFalse (by intro hc; exact Except.noConfusion hc)
  case ok.error a b => exact .isFalse (by intro hc; exact Except.noConfusion hc)
  case ok.ok a b =>
    exact if h : a = b then .isTrue (by rw [h])
      else .isFalse (by intro hc; injection hc; contradiction)

/-- Claim C1 counterexample: the sum invariant exactly as stated
(token amounts + remainingSupply = totalSupply) holds before but NOT
after a successful order creation, because the escrow debit removes
tokens from the ledger without touching remainingSupply. -/
theorem createOrder_breaks_claimed_sum_inv :
    claimedSumInv dbSeed ∧
    applyOp (Op.createOrder 1 1 20 500) dbSeed = Except.ok dbSeedAfterOrder ∧
    ¬ claimedSumInv dbSeedAfterOrder := by
  refine ⟨by decide, by decide, by decide⟩

/-- Claim C3 counterexample: a successful order creation changes the
seller's Token.amount (50 to 30) yet appends no Transfer row at all. -/
theorem createOrder_changes_balance_without_transfer :
    applyOp (Op.createOrder 1 1 20 500) dbSeed = Except.ok dbSeedAfterOrder ∧
    balance dbSeed 1 1 = 50 ∧ balance dbSeedAfterOrder 1 1 = 30 ∧
    dbSeedAfterOrder.transfers = dbSeed.transfers := by
  refine ⟨by decide, by decide, by decide, by decide⟩

/-- Claim C7 counterexample: the caller is the seller and the order is
OPEN, yet cancelOrder fails, because the route sits behind
kycApprovedMiddleware and the seller's account is frozen. -/
theorem frozen_seller_cannot_cancel :
    statusOf dbFrozenSeller 1 = some OrderStatus.OPEN ∧
    (Storage.getOrder dbFrozenSeller 1).map Order.sellerId = some 1 ∧
    cancelOrder dbFrozenSeller 1 1 = Except.error ApiError.accountFrozen := by
  refine ⟨by decide, by decide, by decide⟩

/-- Claim C8 counterexample: escrowing the seller's entire balance at
order creation leaves the Token row in place with amount exactly 0,
instead of deleting it. -/
theorem escrow_keeps_zero_amount_row :
    applyOp (Op.createOrder 1 1 20 100) dbFullBalance = Except.ok dbFullBalanceAfter ∧
    (⟨1, 1, 1, 0, 0⟩ : Token) ∈ dbFullBalanceAfter.tokens := by
  refine ⟨by decide, by decide⟩

/-- Claim C9 failing input: createOrder with tokenAmount = -5 is
accepted (the !tokenAmount falsiness check only rejects 0), the
seller's balance increases from 10 to 15, and an OPEN order over -5
tokens is created — no validation error, and state changes. -/
theorem createOrder_accepts_negative_amount :
    applyOp (Op.createOrder 1 1 (-5) 100) dbTen = Except.ok dbTenAfterNeg ∧
    balance dbTen 1 1 = 10 ∧ balance dbTenAfterNeg 1 1 = 15 ∧
    Storage.getOrder dbTenAfterNeg 1 =
      some ⟨1, 1, none, 1, -5, 100, .OPEN, .PENDING⟩ := by
  refine ⟨by decide, by decide, by decide, by decide⟩

/-! ## Generic lemmas about keyed row updates -/

namespace LedgerList

variable {α : Type} {β : Type}

/-- The shape of every SQL update in Storage: rewrite the rows whose
key (primary key) equals i. -/
def updAt (key : α → Nat) (l : List α) (i : Nat) (f : α → α) : List α :=
  l.map (fun t => if key t == i then f t else t)

theorem updAt_eq_self (key : α → Nat) (l : List α) (i : Nat) (f : α → α)
    (h : ∀ t ∈ l, key t ≠ i) : updAt key l i f = l := by
  unfold updAt
  have : ∀ t ∈ l, (if key t == i then f t else t) = id t := by
    intro t ht
    have : (key t == i) = false := by
      simp only [beq_eq_false_iff_ne, ne_eq]
      exact h t ht
    simp [this]
  rw [List.map_congr_left this, List.map_id]

theorem map_updAt (key : α → Nat) (l : List α) (i : Nat) (f : α → α) (π : α → β)
    (hf : ∀ t, π (f t) = π t) :
    (updAt key l i f).map π = l.map π := by
  unfold updAt
  rw [List.map_map]
  refine List.map_congr_left ?_
  intro t _
  simp only [Function.comp]
  split
  · exact hf t
  · rfl

theorem find?_updAt (key : α → Nat) (l : List α) (i : Nat) (f : α → α) (p : α → Bool)
    (hp : ∀ t, p (f t) = p t) :
    (updAt key l i f).find? p =
      (l.find? p).map (fun t => if key t == i then f t else t) := by
  unfold updAt
  rw [List.find?_map]
  have : (p ∘ fun t => if key t == i then f t else t) = p := by
    funext t
    simp only [Function.comp]
    split
    · exact hp t
    · rfl
  rw [this]

theorem updAt_cons (key : α → Nat) (a : α) (tl : List α) (i : Nat) (f : α → α) :
    updAt key (a :: tl) i f =
      (if key a == i then f a else a) :: updAt key tl i f := rfl

theorem sum_updAt (key : α → Nat) (g : α → Int) (l : List α) (i : Nat) (f : α → α)
    (hnd : (l.map key).Nodup) (t0 : α) (ht0 : t0 ∈ l) (hkey : key t0 = i) :
    ((updAt key l i f).map g).sum = (l.map g).sum + (g (f t0) - g t0) := by
  induction l with
  | nil => cases ht0
  | cons a tl ih =>
    rw [List.map_cons, List.nodup_cons] at hnd
    rcases List.mem_cons.mp ht0 with h0 | h0
    · subst h0
      have hmiss : ∀ t ∈ tl, key t ≠ i := by
        intro t ht hc
        exact hnd.1 (hkey ▸ hc ▸ List.mem_map_of_mem key ht)
      have htail : updAt key tl i f = tl := updAt_eq_self key tl i f hmiss
      have hif : (if key t0 == i then f t0 else t0) = f t0 := by
        simp [hkey]
      rw [updAt_cons, hif, htail, List.map_cons, List.sum_cons, List.map_cons,
        List.sum_cons]
      ring
    · have hne : key a ≠ i := by
        intro hc
        exact hnd.1 (hc ▸ hkey ▸ List.mem_map_of_mem key h0)
      have hif : (if key a == i then f a else a) = a := by
        have : (key a == i) = false := by
          simp only [beq_eq_false_iff_ne, ne_eq]
          exact hne
        simp [this]
      rw [updAt_cons, hif, List.map_cons, List.sum_cons, List.map_cons,
        List.sum_cons, ih hnd.2 h0]
      ring

theorem sum_filterNe (key : α → Nat) (g : α → Int) (l : List α) (i : Nat)
    (hnd : (l.map key).Nodup) (t0 : α) (ht0 : t0 ∈ l) (hkey : key t0 = i) :
    ((l.filter (fun t => key t != i)).map g).sum = (l.map g).sum - g t0 := by
  induction l with
  | nil => cases ht0
  | cons a tl ih =>
    rw [List.map_cons, List.nodup_cons] at hnd
    rcases List.mem_cons.mp ht0 with h0 | h0
    · subst h0
      have hmiss : ∀ t ∈ tl, key t ≠ i := by
        intro t ht hc
        exact hnd.1 (hkey ▸ hc ▸ List.mem_map_of_mem key ht)
      have htail : tl.filter (fun t => key t != i) = tl := by
        rw [List.filter_eq_self]
        intro t ht
        simp only [bne_iff_ne, ne_eq]
        exact hmiss t ht
      rw [List.filter_cons]
      have : (key t0 != i) = false := by
        simp [hkey]
      rw [this]
      simp only [Bool.false_eq_true, if_false]
      rw [htail, List.map_cons, List.sum_cons]
      ring
    · have hne : key a ≠ i := by
        intro hc
        exact hnd.1 (hc ▸ hkey ▸ List.mem_map_of_mem key h0)
      rw [List.filter_cons]
      have : (key a != i) = true := by
        simp only [bne_iff_ne, ne_eq]
        exact hne
      rw [this]
      simp only [if_true]
      rw [List.map_cons, List.sum_cons, List.map_cons, List.sum_cons,
        ih hnd.2 h0]
      ring

theorem length_le_one_of_const (π : α → β) (l : List α) (c : β)
    (hnd : (l.map π).Nodup) (hall : ∀ x ∈ l, π x = c) : l.length ≤ 1 := by
  match l with
  | [] => simp
  | [x] => simp
  | x :: y :: tl =>
    exfalso
    rw [List.map_cons, List.nodup_cons] at hnd
    apply hnd.1
    rw [hall x (by simp), ← hall y (by simp)]
    exact List.mem_map_of_mem π (by simp)

theorem sum_map_append (g : α → Int) (l : List α) (x : α) :
    ((l ++ [x]).map g).sum = (l.map g).sum + g x := by
  rw [List.map_append, List.sum_append]
  simp

end LedgerList

/-! ## Bridge lemmas: storage operations vs. observations -/

theorem balance_some {db : DB} {a u : Nat} {t : Token}
    (h : Storage.getTokenByAssetAndUser db a u = some t) : balance db a u = t.amount := by
  unfold balance
  rw [h]

theorem balance_none {db : DB} {a u : Nat}
    (h : Storage.getTokenByAssetAndUser db a u = none) : balance db a u = 0 := by
  unfold balance
  rw [h]

theorem costBasisOf_some {db : DB} {a u : Nat} {t : Token}
    (h : Storage.getTokenByAssetAndUser db a u = some t) : costBasisOf db a u = t.costBasis := by
  unfold costBasisOf
  rw [h]

theorem costBasisOf_none {db : DB} {a u : Nat}
    (h : Storage.getTokenByAssetAndUser db a u = none) : costBasisOf db a u = 0 := by
  unfold costBasisOf
  rw [h]

theorem getTBAU_mem {db : DB} {a u : Nat} {t : Token}
    (h : Storage.getTokenByAssetAndUser db a u = some t) :
    t ∈ db.tokens ∧ t.assetId = a ∧ t.ownerId = u := by
  refine ⟨List.mem_of_find?_eq_some h, ?_, ?_⟩
  · have := List.find?_some h
    simp only [Bool.and_eq_true, beq_iff_eq] at this
    exact this.1
  · have := List.find?_some h
    simp only [Bool.and_eq_true, beq_iff_eq] at this
    exact this.2

theorem getToken_mem {db : DB} {i : Nat} {t : Token}
    (h : Storage.getToken db i = some t) : t ∈ db.tokens ∧ t.id = i := by
  refine ⟨List.mem_of_find?_eq_some h, ?_⟩
  have := List.find?_some h
  simpa using this

theorem getAsset_mem {db : DB} {i : Nat} {a : Asset}
    (h : Storage.getAsset db i = some a) : a ∈ db.assets ∧ a.id = i := by
  refine ⟨List.mem_of_find?_eq_some h, ?_⟩
  have := List.find?_some h
  simpa using this

theorem getOrder_mem {db : DB} {i : Nat} {o : Order}
    (h : Storage.getOrder db i = some o) : o ∈ db.orders ∧ o.id = i := by
  refine ⟨List.mem_of_find?_eq_some h, ?_⟩
  have := List.find?_some h
  simpa using this

/-- Updating one tokens row by id commutes with the (asset, owner)
lookup: the result is the original lookup with the update applied. -/
theorem getTBAU_updateTokenCostBasis (db : DB) (i : Nat) (cb am : Int) (a u : Nat) :
    Storage.getTokenByAssetAndUser (Storage.updateTokenCostBasis db i cb am) a u =
      (Storage.getTokenByAssetAndUser db a u).map
        (fun t => if t.id == i then { t with costBasis := cb, amount := am } else t) := by
  unfold Storage.getTokenByAssetAndUser Storage.updateTokenCostBasis
  exact LedgerList.find?_updAt Token.id db.tokens i _ _ (fun t => rfl)

/-- The row found by the (asset, owner) lookup, updated through its own
id, is found again with the new costBasis and amount. -/
theorem getTBAU_upsert_found {db : DB} {a u : Nat} {t0 : Token}
    (h : Storage.getTokenByAssetAndUser db a u = some t0) (cb am : Int) :
    Storage.getTokenByAssetAndUser (Storage.updateTokenCostBasis db t0.id cb am) a u =
      some { t0 with costBasis := cb, amount := am } := by
  rw [getTBAU_updateTokenCostBasis, h]
  simp

/-- When no (asset, owner) row exists, createToken makes the lookup
return exactly the inserted row. -/
theorem getTBAU_upsert_new {db : DB} {a u : Nat}
    (h : Storage.getTokenByAssetAndUser db a u = none) (am cb : Int) :
    Storage.getTokenByAssetAndUser (Storage.createToken db a u am cb) a u =
      some ⟨db.nextTokenId, a, u, am, cb⟩ := by
  unfold Storage.getTokenByAssetAndUser at h
  unfold Storage.getTokenByAssetAndUser Storage.createToken
  rw [List.find?_append, h]
  simp

/-- Updating an asset row by id commutes with the asset lookup. -/
theorem getAsset_updateAssetRemainingSupply (db : DB) (i : Nat) (r : Int) (a : Nat) :
    Storage.getAsset (Storage.updateAssetRemainingSupply db i r) a =
      (Storage.getAsset db a).map
        (fun x => if x.id == i then { x with remainingSupply := r } else x) := by
  unfold Storage.getAsset Storage.updateAssetRemainingSupply
  exact LedgerList.find?_updAt Asset.id db.assets i _ _ (fun x => rfl)

/-- Updating an order row's status/buyer commutes with the order lookup. -/
theorem getOrder_updateOrderStatus (db : DB) (i : Nat) (st : OrderStatus)
    (b : Option Nat) (oid : Nat) :
    Storage.getOrder (Storage.updateOrderStatus db i st b) oid =
      (Storage.getOrder db oid).map
        (fun o => if o.id == i then
            { o with status := st,
                     buyerId := match b with | some x => some x | none => o.buyerId }
          else o) := by
  unfold Storage.getOrder Storage.updateOrderStatus
  exact LedgerList.find?_updAt Order.id db.orders i _ _ (fun o => rfl)

/-- Updating an order row's approvalStatus commutes with the order lookup. -/
theorem getOrder_updateOrderApprovalStatus (db : DB) (i : Nat) (st : ApprovalStatus)
    (oid : Nat) :
    Storage.getOrder (Storage.updateOrderApprovalStatus db i st) oid =
      (Storage.getOrder db oid).map
        (fun o => if o.id == i then { o with approvalStatus := st } else o) := by
  unfold Storage.getOrder Storage.updateOrderApprovalStatus
  exact LedgerList.find?_updAt Order.id db.orders i _ _ (fun o => rfl)

/-- The freshly inserted order row is found under the returned id,
provided existing order ids are below the counter. -/
theorem getOrder_createOrder_fresh {db : DB}
    (hfresh : ∀ o ∈ db.orders, o.id < db.nextOrderId)
    (sellerId assetId : Nat) (n p : Int) :
    Storage.getOrder (Storage.createOrder db sellerId assetId n p).1 db.nextOrderId =
      some ⟨db.nextOrderId, sellerId, none, assetId, n, p,
        OrderStatus.OPEN, ApprovalStatus.PENDING⟩ := by
  unfold Storage.getOrder Storage.createOrder
  rw [List.find?_append]
  have hnone : db.orders.find? (fun o => o.id == db.nextOrderId) = none := by
    rw [List.find?_eq_none]
    intro o ho
    simp only [beq_iff_eq]
    exact Nat.ne_of_lt (hfresh o ho)
  rw [hnone]
  simp

/-- Deleting a tokens row by id makes the id lookup fail. -/
theorem getToken_deleteToken (db : DB) (i : Nat) :
    Storage.getToken (Storage.deleteToken db i) i = none := by
  unfold Storage.getToken Storage.deleteToken
  rw [List.find?_eq_none]
  intro t ht
  rw [List.mem_filter] at ht
  have := ht.2
  simp only [bne_iff_ne, ne_eq] at this
  simp only [beq_iff_eq]
  exact this

/-! ## Projection invariances (operations not touching a table) -/

theorem balance_createTransfer (db : DB) (tr : Transfer) (a u : Nat) :
    balance (Storage.createTransfer db tr) a u = balance db a u := rfl

theorem balance_createPriceHistory (db : DB) (x : Nat) (p v : Int) (o : Option Nat)
    (a u : Nat) : balance (Storage.createPriceHistory db x p v o) a u = balance db a u := rfl

theorem balance_updateAssetRemainingSupply (db : DB) (i : Nat) (r : Int) (a u : Nat) :
    balance (Storage.updateAssetRemainingSupply db i r) a u = balance db a u := rfl

theorem balance_updateOrderStatus (db : DB) (i : Nat) (st : OrderStatus)
    (b : Option Nat) (a u : Nat) :
    balance (Storage.updateOrderStatus db i st b) a u = balance db a u := rfl

theorem balance_updateOrderApprovalStatus (db : DB) (i : Nat) (st : ApprovalStatus)
    (a u : Nat) :
    balance (Storage.updateOrderApprovalStatus db i st) a u = balance db a u := rfl

theorem balance_createOrder (db : DB) (s x : Nat) (n p : Int) (a u : Nat) :
    balance (Storage.createOrder db s x n p).1 a u = balance db a u := rfl

theorem costBasisOf_createTransfer (db : DB) (tr : Transfer) (a u : Nat) :
    costBasisOf (Storage.createTransfer db tr) a u = costBasisOf db a u := rfl

theorem costBasisOf_createPriceHistory (db : DB) (x : Nat) (p v : Int) (o : Option Nat)
    (a u : Nat) :
    costBasisOf (Storage.createPriceHistory db x p v o) a u = costBasisOf db a u := rfl

theorem costBasisOf_updateAssetRemainingSupply (db : DB) (i : Nat) (r : Int) (a u : Nat) :
    costBasisOf (Storage.updateAssetRemainingSupply db i r) a u = costBasisOf db a u := rfl

theorem costBasisOf_updateOrderStatus (db : DB) (i : Nat) (st : OrderStatus)
    (b : Option Nat) (a u : Nat) :
    costBasisOf (Storage.updateOrderStatus db i st b) a u = costBasisOf db a u := rfl

theorem costBasisOf_createOrder (db : DB) (s x : Nat) (n p : Int) (a u : Nat) :
    costBasisOf (Storage.createOrder db s x n p).1 a u = costBasisOf db a u := rfl

theorem getAsset_updateTokenCostBasis (db : DB) (i : Nat) (cb am : Int) (a : Nat) :
    Storage.getAsset (Storage.updateTokenCostBasis db i cb am) a =
      Storage.getAsset db a := rfl

theorem getAsset_createToken (db : DB) (x u : Nat) (am cb : Int) (a : Nat) :
    Storage.getAsset (Storage.createToken db x u am cb) a = Storage.getAsset db a := rfl

theorem getAsset_updateTokenAmount (db : DB) (i : Nat) (am : Int) (a : Nat) :
    Storage.getAsset (Storage.updateTokenAmount db i am) a = Storage.getAsset db a := rfl

theorem getAsset_deleteToken (db : DB) (i : Nat) (a : Nat) :
    Storage.getAsset (Storage.deleteToken db i) a = Storage.getAsset db a := rfl

theorem remainingOf_createTransfer (db : DB) (tr : Transfer) (a : Nat) :
    remainingOf (Storage.createTransfer db tr) a = remainingOf db a := rfl

theorem statusOf_updateTokenCostBasis (db : DB) (i : Nat) (cb am : Int) (oid : Nat) :
    statusOf (Storage.updateTokenCostBasis db i cb am) oid = statusOf db oid := rfl

theorem statusOf_createToken (db : DB) (x u : Nat) (am cb : Int) (oid : Nat) :
    statusOf (Storage.createToken db x u am cb) oid = statusOf db oid := rfl

theorem statusOf_createTransfer (db : DB) (tr : Transfer) (oid : Nat) :
    statusOf (Storage.createTransfer db tr) oid = statusOf db oid := rfl

theorem transfers_createTransfer (db : DB) (tr : Transfer) :
    (Storage.createTransfer db tr).transfers = db.transfers ++ [tr] := rfl

theorem transfers_updateAssetRemainingSupply (db : DB) (i : Nat) (r : Int) :
    (Storage.updateAssetRemainingSupply db i r).transfers = db.transfers := rfl

theorem transfers_updateTokenCostBasis (db : DB) (i : Nat) (cb am : Int) :
    (Storage.updateTokenCostBasis db i cb am).transfers = db.transfers := rfl

theorem transfers_createToken (db : DB) (x u : Nat) (am cb : Int) :
    (Storage.createToken db x u am cb).transfers = db.transfers := rfl

theorem transfers_updateTokenAmount (db : DB) (i : Nat) (am : Int) :
    (Storage.updateTokenAmount db i am).transfers = db.transfers := rfl

theorem transfers_deleteToken (db : DB) (i : Nat) :
    (Storage.deleteToken db i).transfers = db.transfers := rfl

theorem transfers_updateOrderStatus (db : DB) (i : Nat) (st : OrderStatus)
    (b : Option Nat) : (Storage.updateOrderStatus db i st b).transfers = db.transfers := rfl

theorem transfers_updateOrderApprovalStatus (db : DB) (i : Nat) (st : ApprovalStatus) :
    (Storage.updateOrderApprovalStatus db i st).transfers = db.transfers := rfl

theorem transfers_createOrder (db : DB) (s x : Nat) (n p : Int) :
    (Storage.createOrder db s x n p).1.transfers = db.transfers := rfl

theorem transfers_createPriceHistory (db : DB) (x : Nat) (p v : Int) (o : Option Nat) :
    (Storage.createPriceHistory db x p v o).transfers = db.transfers := rfl

/-! ## Row-count lemmas for the (asset, owner) pair -/

theorem tokenRowCount_updateTokenCostBasis (db : DB) (i : Nat) (cb am : Int) (a u : Nat) :
    tokenRowCount (Storage.updateTokenCostBasis db i cb am) a u = tokenRowCount db a u := by
  unfold tokenRowCount Storage.updateTokenCostBasis
  show (List.filter _ (List.map _ _)).length = _
  rw [List.filter_map, List.length_map]
  congr 1
  refine List.filter_congr ?_
  intro t _
  simp only [Function.comp]
  split <;> rfl

theorem tokenRowCount_createToken_self (db : DB) (a u : Nat) (am cb : Int) :
    tokenRowCount (Storage.createToken db a u am cb) a u = tokenRowCount db a u + 1 := by
  unfold tokenRowCount Storage.createToken
  show (List.filter _ (_ ++ _)).length = _
  rw [List.filter_append, List.length_append]
  congr 1
  simp

theorem tokenRowCount_le_one {db : DB}
    (hnd : (db.tokens.map (fun t => (t.assetId, t.ownerId))).Nodup) (a u : Nat) :
    tokenRowCount db a u ≤ 1 := by
  unfold tokenRowCount
  refine LedgerList.length_le_one_of_const (fun t => (t.assetId, t.ownerId)) _ (a, u) ?_ ?_
  · exact List.Nodup.sublist (List.Sublist.map _ (List.filter_sublist _)) hnd
  · intro x hx
    rw [List.mem_filter] at hx
    have hx2 := hx.2
    simp only [Bool.and_eq_true, beq_iff_eq] at hx2
    simp [hx2.1, hx2.2]

theorem tokenRowCount_pos_of_found {db : DB} {a u : Nat} {t : Token}
    (h : Storage.getTokenByAssetAndUser db a u = some t) : 1 ≤ tokenRowCount db a u := by
  unfold tokenRowCount
  have hq := List.find?_some h
  have hmem := List.mem_of_find?_eq_some h
  have hin : t ∈ db.tokens.filter (fun s => s.assetId == a && s.ownerId == u) :=
    List.mem_filter.mpr ⟨hmem, hq⟩
  exact List.length_pos.mpr (List.ne_nil_of_mem hin)

theorem tokenRowCount_zero_of_none {db : DB} {a u : Nat}
    (h : Storage.getTokenByAssetAndUser db a u = none) : tokenRowCount db a u = 0 := by
  unfold tokenRowCount
  unfold Storage.getTokenByAssetAndUser at h
  rw [List.find?_eq_none] at h
  rw [List.filter_eq_nil_iff.mpr h]
  rfl

theorem tokenRowCount_createTransfer (db : DB) (tr : Transfer) (a u : Nat) :
    tokenRowCount (Storage.createTransfer db tr) a u = tokenRowCount db a u := rfl

theorem tokenRowCount_updateAssetRemainingSupply (db : DB) (i : Nat) (r : Int)
    (a u : Nat) :
    tokenRowCount (Storage.updateAssetRemainingSupply db i r) a u = tokenRowCount db a u := rfl

/-- remainingSupply after updating exactly the looked-up asset. -/
theorem remainingOf_update_found {db : DB} {aid : Nat} {asset : Asset}
    (ha : Storage.getAsset db aid = some asset) (r : Int) :
    remainingOf (Storage.updateAssetRemainingSupply db aid r) aid = r := by
  unfold remainingOf
  rw [getAsset_updateAssetRemainingSupply, ha]
  have h2 : asset.id = aid := (getAsset_mem ha).2
  simp [h2]

/-! ## Mint: functional correctness -/

/-- Claim C4: mint with amount > 0 on an existing asset and user
succeeds exactly when the recipient KYC is APPROVED and
remainingSupply covers the amount; on success the (asset, owner)
balance grows by the amount, the cost basis by amount * navPrice,
exactly one tokens row exists for the pair (created if absent,
incremented otherwise, never duplicated), remainingSupply drops by the
amount, and exactly one Transfer (fromUserId null, toUserId the owner,
reason MINT) is appended. -/
theorem mint_correct (db : DB) (aid uid : Nat) (n : Int) (asset : Asset) (user : User)
    (hwf : WF db)
    (ha : Storage.getAsset db aid = some asset)
    (hu : Storage.getUser db uid = some user)
    (hn : 0 < n) :
    ((∃ db2, mint db aid uid n = .ok db2) ↔
      (user.kycStatus = KycStatus.APPROVED ∧ n ≤ asset.remainingSupply)) ∧
    (∀ db2, mint db aid uid n = .ok db2 →
      balance db2 aid uid = balance db aid uid + n ∧
      costBasisOf db2 aid uid = costBasisOf db aid uid + asset.navPrice * n ∧
      tokenRowCount db2 aid uid = 1 ∧
      remainingOf db2 aid = asset.remainingSupply - n ∧
      db2.transfers = db.transfers ++ [⟨aid, none, some uid, n, .MINT⟩]) := by
  have hnle : ¬ (n ≤ 0) := not_le.mpr hn
  constructor
  · constructor
    · rintro ⟨db2, h⟩
      unfold mint at h
      rw [if_neg hnle, ha, hu] at h
      simp only [] at h
      by_cases hk : user.kycStatus = KycStatus.APPROVED
      · refine ⟨hk, ?_⟩
        by_cases hs : asset.remainingSupply < n
        · rw [if_neg (by simp [hk]), if_pos hs] at h
          cases h
        · exact not_lt.mp hs
      · rw [if_pos (by simp [hk])] at h
        cases h
    · rintro ⟨hk, hs⟩
      unfold mint
      rw [if_neg hnle, ha, hu]
      simp only [hk, ne_eq, not_true_eq_false, if_false, if_neg (not_lt.mpr hs)]
      cases hT : Storage.getTokenByAssetAndUser db aid uid with
      | some t0 => exact ⟨_, rfl⟩
      | none => exact ⟨_, rfl⟩
  · intro db2 h
    unfold mint at h
    rw [if_neg hnle, ha, hu] at h
    simp only [] at h
    by_cases hk : user.kycStatus = KycStatus.APPROVED
    · by_cases hs : asset.remainingSupply < n
      · rw [if_neg (by simp [hk]), if_pos hs] at h
        cases h
      · rw [if_neg (by simp [hk]), if_neg hs] at h
        cases hT : Storage.getTokenByAssetAndUser db aid uid with
        | some t0 =>
          rw [hT] at h
          simp only [Except.ok.injEq] at h
          subst h
          have ha1 : Storage.getAsset
              (Storage.updateTokenCostBasis db t0.id
                (t0.costBasis + asset.navPrice * n) (t0.amount + n)) aid = some asset := by
            rw [getAsset_updateTokenCostBasis]
            exact ha
          refine ⟨?_, ?_, ?_, ?_, ?_⟩
          · rw [balance_createTransfer, balance_updateAssetRemainingSupply,
              balance_some (getTBAU_upsert_found hT _ _), balance_some hT]
          · rw [costBasisOf_createTransfer, costBasisOf_updateAssetRemainingSupply,
              costBasisOf_some (getTBAU_upsert_found hT _ _), costBasisOf_some hT]
          · rw [tokenRowCount_createTransfer, tokenRowCount_updateAssetRemainingSupply,
              tokenRowCount_updateTokenCostBasis]
            have hle : tokenRowCount db aid uid ≤ 1 := tokenRowCount_le_one hwf.2.1 aid uid
            have hge : 1 ≤ tokenRowCount db aid uid := tokenRowCount_pos_of_found hT
            omega
          · rw [remainingOf_createTransfer, remainingOf_update_found ha1]
          · rw [transfers_createTransfer, transfers_updateAssetRemainingSupply,
              transfers_updateTokenCostBasis]
        | none =>
          rw [hT] at h
          simp only [Except.ok.injEq] at h
          subst h
          have ha1 : Storage.getAsset
              (Storage.createToken db aid uid n (asset.navPrice * n)) aid = some asset := by
            rw [getAsset_createToken]
            exact ha
          refine ⟨?_, ?_, ?_, ?_, ?_⟩
          · rw [balance_createTransfer, balance_updateAssetRemainingSupply,
              balance_some (getTBAU_upsert_new hT _ _), balance_none hT]
            ring
          · rw [costBasisOf_createTransfer, costBasisOf_updateAssetRemainingSupply,
              costBasisOf_some (getTBAU_upsert_new hT _ _), costBasisOf_none hT]
            ring
          · rw [tokenRowCount_createTransfer, tokenRowCount_updateAssetRemainingSupply,
              tokenRowCount_createToken_self, tokenRowCount_zero_of_none hT]
          · rw [remainingOf_createTransfer, remainingOf_update_found ha1]
          · rw [transfers_createTransfer, transfers_updateAssetRemainingSupply,
              transfers_createToken]
    · rw [if_pos (by simp [hk])] at h
      cases h

theorem getUser_updateUserFrozenStatus (db : DB) (i : Nat) (b : Bool) (u : Nat) :
    Storage.getUser (Storage.updateUserFrozenStatus db i b) u =
      (Storage.getUser db u).map
        (fun x => if x.id == i then { x with isFrozen := b } else x) := by
  unfold Storage.getUser Storage.updateUserFrozenStatus
  exact LedgerList.find?_updAt User.id db.users i _ _ (fun x => rfl)

theorem getUser_mem {db : DB} {i : Nat} {u : User}
    (h : Storage.getUser db i = some u) : u ∈ db.users ∧ u.id = i := by
  refine ⟨List.mem_of_find?_eq_some h, ?_⟩
  have := List.find?_some h
  simpa using this

/-- Claim C10: mint never inspects the recipient isFrozen flag — for
an APPROVED but frozen recipient with sufficient supply it succeeds,
and the resulting tokens, assets, and transfers tables are exactly
those produced for the same recipient unfrozen. -/
theorem mint_ignores_frozen (db : DB) (aid uid : Nat) (n : Int) (asset : Asset) (user : User)
    (ha : Storage.getAsset db aid = some asset)
    (hu : Storage.getUser db uid = some user)
    (hk : user.kycStatus = KycStatus.APPROVED)
    (hf : user.isFrozen = true)
    (hn : 0 < n)
    (hs : n ≤ asset.remainingSupply) :
    (∃ db1, mint db aid uid n = Except.ok db1) ∧
    (mint db aid uid n).map DB.tokens =
      (mint (Storage.updateUserFrozenStatus db uid false) aid uid n).map DB.tokens ∧
    (mint db aid uid n).map DB.assets =
      (mint (Storage.updateUserFrozenStatus db uid false) aid uid n).map DB.assets ∧
    (mint db aid uid n).map DB.transfers =
      (mint (Storage.updateUserFrozenStatus db uid false) aid uid n).map DB.transfers := by
  have hnle : ¬ (n ≤ 0) := not_le.mpr hn
  have haU : Storage.getAsset (Storage.updateUserFrozenStatus db uid false) aid =
      some asset := ha
  have huU : Storage.getUser (Storage.updateUserFrozenStatus db uid false) uid =
      some { user with isFrozen := false } := by
    rw [getUser_updateUserFrozenStatus, hu]
    have hid : user.id = uid := (getUser_mem hu).2
    simp [hid]
  have hTU : ∀ r, Storage.getTokenByAssetAndUser
      (Storage.updateUserFrozenStatus db uid false) aid uid = r ↔
      Storage.getTokenByAssetAndUser db aid uid = r := by
    intro r
    exact Iff.rfl
  unfold mint
  rw [if_neg hnle, if_neg hnle, ha, hu, haU, huU]
  simp only [hk, ne_eq, not_true_eq_false, if_false, if_neg (not_lt.mpr hs)]
  cases hT : Storage.getTokenByAssetAndUser db aid uid with
  | some t0 =>
    rw [(hTU _).mpr hT]
    refine ⟨⟨_, rfl⟩, ?_, ?_, ?_⟩ <;> rfl
  | none =>
    rw [(hTU _).mpr hT]
    refine ⟨⟨_, rfl⟩, ?_, ?_, ?_⟩ <;> rfl

/-- Witness for mint_correct at a concrete state: minting 10 more
tokens to the approved holder of dbSeed is possible. -/
theorem mint_correct_witness :
    ∃ db2, mint dbSeed 1 1 10 = Except.ok db2 :=
  ((mint_correct dbSeed 1 1 10 ⟨1, 100, 50, 100⟩ ⟨1, .APPROVED, false, .INVESTOR⟩
      (by decide) (by decide) (by decide) (by decide)).1).mpr ⟨rfl, by decide⟩

/-- Witness for mint_ignores_frozen at a concrete state: minting 10
tokens to the frozen (but approved) holder of dbFrozenSeller succeeds. -/
theorem mint_ignores_frozen_witness :
    ∃ db1, mint dbFrozenSeller 1 1 10 = Except.ok db1 :=
  (mint_ignores_frozen dbFrozenSeller 1 1 10 ⟨1, 100, 50, 100⟩
      ⟨1, .APPROVED, true, .INVESTOR⟩ (by decide) (by decide) rfl rfl
      (by decide) (by decide)).1

/-! ## Escrow correctness -/

theorem getTBAU_updateOrderStatus (db : DB) (i : Nat) (st : OrderStatus)
    (b : Option Nat) (a u : Nat) :
    Storage.getTokenByAssetAndUser (Storage.updateOrderStatus db i st b) a u =
      Storage.getTokenByAssetAndUser db a u := rfl

theorem getTBAU_updateOrderApprovalStatus (db : DB) (i : Nat) (st : ApprovalStatus)
    (a u : Nat) :
    Storage.getTokenByAssetAndUser (Storage.updateOrderApprovalStatus db i st) a u =
      Storage.getTokenByAssetAndUser db a u := rfl

/-- Updating a tokens row whose id differs from the row found by the
(asset, owner) lookup leaves the balance unchanged. -/
theorem balance_updateTokenCostBasis_other {db : DB} {i : Nat} {cb am : Int} {a u : Nat}
    (h : ∀ t, Storage.getTokenByAssetAndUser db a u = some t → t.id ≠ i) :
    balance (Storage.updateTokenCostBasis db i cb am) a u = balance db a u := by
  unfold balance
  rw [getTBAU_updateTokenCostBasis]
  cases hx : Storage.getTokenByAssetAndUser db a u with
  | none => rfl
  | some t =>
    have hne : t.id ≠ i := h t hx
    simp [hne]

/-- Inserting a tokens row for a different owner leaves the
(asset, owner) lookup unchanged. -/
theorem getTBAU_createToken_other {db : DB} {x u : Nat} {am cb : Int} {a v : Nat}
    (hne : v ≠ u) :
    Storage.getTokenByAssetAndUser (Storage.createToken db x u am cb) a v =
      Storage.getTokenByAssetAndUser db a v := by
  unfold Storage.getTokenByAssetAndUser Storage.createToken
  rw [List.find?_append]
  cases hx : List.find? (fun t => t.assetId == a && t.ownerId == v) db.tokens with
  | some t => rfl
  | none =>
    show Option.or none _ = none
    rw [Option.none_or]
    rw [List.find?_eq_none]
    intro t ht
    rw [List.mem_singleton] at ht
    subst ht
    simp only [Bool.and_eq_true, beq_iff_eq, not_and]
    intro _ hc
    exact hne hc.symm

/-- Claim C2: escrow correctness. Creating an order over n tokens
debits exactly n from the seller's balance and records the order OPEN;
cancelling or rejecting an order credits exactly its tokenAmount back
to the seller; filling credits exactly its tokenAmount to the buyer
and returns nothing to the seller. -/
theorem escrow_correct (db : DB) (hwf : WF db) :
    (∀ caller aid : Nat, ∀ n p : Int, ∀ db2 : DB, ∀ oid : Nat,
      createOrder db caller aid n p = .ok (db2, oid) →
      balance db2 aid caller = balance db aid caller - n ∧
      Storage.getOrder db2 oid =
        some ⟨oid, caller, none, aid, n, p, .OPEN, .PENDING⟩) ∧
    (∀ caller oid : Nat, ∀ o : Order, ∀ db2 : DB,
      Storage.getOrder db oid = some o → cancelOrder db caller oid = .ok db2 →
      balance db2 o.assetId o.sellerId = balance db o.assetId o.sellerId + o.tokenAmount) ∧
    (∀ oid : Nat, ∀ o : Order, ∀ db2 : DB,
      Storage.getOrder db oid = some o → rejectOrder db oid = .ok db2 →
      balance db2 o.assetId o.sellerId = balance db o.assetId o.sellerId + o.tokenAmount) ∧
    (∀ buyer oid : Nat, ∀ o : Order, ∀ db2 : DB,
      Storage.getOrder db oid = some o → fillOrder db buyer oid = .ok db2 →
      balance db2 o.assetId buyer = balance db o.assetId buyer + o.tokenAmount ∧
      balance db2 o.assetId o.sellerId = balance db o.assetId o.sellerId) := by
  refine ⟨?_, ?_, ?_, ?_⟩
  · -- createOrder escrow debit
    intro caller aid n p db2 oid h
    unfold createOrder at h
    cases hM : kycApprovedMiddleware db caller with
    | error e => rw [hM] at h; cases h
    | ok caller0 =>
      rw [hM] at h
      simp only [] at h
      by_cases hz : n = 0 ∨ p = 0
      · rw [if_pos hz] at h; cases h
      · rw [if_neg hz] at h
        cases hT : Storage.getTokenByAssetAndUser db aid caller with
        | none => rw [hT] at h; cases h
        | some token =>
          rw [hT] at h
          simp only [] at h
          by_cases hlt : token.amount < n
          · rw [if_pos hlt] at h; cases h
          · rw [if_neg hlt] at h
            simp only [Except.ok.injEq] at h
            have hdb : db2 = (Storage.createOrder
                (Storage.updateTokenCostBasis db token.id
                  (escrowCostBasis token.costBasis token.amount n)
                  (token.amount - n)) caller aid n p).1 := by rw [h]
            have hoid : oid = (Storage.createOrder
                (Storage.updateTokenCostBasis db token.id
                  (escrowCostBasis token.costBasis token.amount n)
                  (token.amount - n)) caller aid n p).2 := by rw [h]
            subst hdb
            subst hoid
            constructor
            · rw [balance_createOrder,
                balance_some (getTBAU_upsert_found hT _ _), balance_some hT]
            · have hfresh : ∀ o ∈ (Storage.updateTokenCostBasis db token.id
                  (escrowCostBasis token.costBasis token.amount n)
                  (token.amount - n)).orders,
                  o.id < (Storage.updateTokenCostBasis db token.id
                    (escrowCostBasis token.costBasis token.amount n)
                    (token.amount - n)).nextOrderId := hwf.2.2.2.2.1
              exact getOrder_createOrder_fresh hfresh caller aid n p
  · -- cancelOrder escrow return
    intro caller oid o db2 ho h
    unfold cancelOrder at h
    cases hM : kycApprovedMiddleware db caller with
    | error e => rw [hM] at h; cases h
    | ok caller0 =>
      rw [hM, ho] at h
      simp only [] at h
      by_cases hst : o.status = OrderStatus.OPEN
      · rw [if_neg (by simp [hst])] at h
        by_cases hsell : o.sellerId = caller
        · rw [if_neg (by simp [hsell])] at h
          cases hT : Storage.getTokenByAssetAndUser db o.assetId caller with
          | some token =>
            rw [hT] at h
            simp only [Except.ok.injEq] at h
            subst h
            rw [hsell, balance_updateOrderStatus,
              balance_some (getTBAU_upsert_found hT _ _), balance_some hT]
          | none =>
            rw [hT] at h
            simp only [Except.ok.injEq] at h
            subst h
            rw [hsell, balance_updateOrderStatus,
              balance_some (getTBAU_upsert_new hT _ _), balance_none hT]
            ring
        · rw [if_pos (by simp [hsell])] at h; cases h
      · rw [if_pos (by simp [hst])] at h; cases h
  · -- rejectOrder escrow return
    intro oid o db2 ho h
    unfold rejectOrder at h
    rw [ho] at h
    simp only [] at h
    by_cases hst : o.status = OrderStatus.OPEN
    · rw [if_neg (by simp [hst])] at h
      rw [getTBAU_updateOrderStatus, getTBAU_updateOrderApprovalStatus] at h
      cases hT : Storage.getTokenByAssetAndUser db o.assetId o.sellerId with
      | some token =>
        rw [hT] at h
        simp only [Except.ok.injEq] at h
        subst h
        have hT2 : Storage.getTokenByAssetAndUser
            (Storage.updateOrderStatus
              (Storage.updateOrderApprovalStatus db o.id ApprovalStatus.REJECTED)
              o.id OrderStatus.CANCELLED none) o.assetId o.sellerId = some token := hT
        rw [balance_some (getTBAU_upsert_found hT2 _ _), balance_some hT]
      | none =>
        rw [hT] at h
        simp only [Except.ok.injEq] at h
        subst h
        have hT2 : Storage.getTokenByAssetAndUser
            (Storage.updateOrderStatus
              (Storage.updateOrderApprovalStatus db o.id ApprovalStatus.REJECTED)
              o.id OrderStatus.CANCELLED none) o.assetId o.sellerId = none := hT
        rw [balance_some (getTBAU_upsert_new hT2 _ _), balance_none hT]
        ring
    · rw [if_pos (by simp [hst])] at h; cases h
  · -- fillOrder buyer credit, seller untouched
    intro buyer oid o db2 ho h
    unfold fillOrder at h
    cases hM : kycApprovedMiddleware db buyer with
    | error e => rw [hM] at h; cases h
    | ok buyer0 =>
      rw [hM, ho] at h
      simp only [] at h
      by_cases hst : o.status = OrderStatus.OPEN
      · rw [if_neg (by simp [hst])] at h
        by_cases hap : o.approvalStatus = ApprovalStatus.APPROVED
        · rw [if_neg (by simp [hap])] at h
          by_cases hself : o.sellerId = buyer
          · rw [if_pos hself] at h; cases h
          · rw [if_neg hself] at h
            cases hS : Storage.getUser db o.sellerId with
            | none => rw [hS] at h; cases h
            | some seller =>
              rw [hS] at h
              simp only [] at h
              by_cases hel : seller.kycStatus ≠ KycStatus.APPROVED ∨ seller.isFrozen = true
              · rw [if_pos (by simpa using hel)] at h; cases h
              · rw [if_neg (by simpa using hel)] at h
                cases hT : Storage.getTokenByAssetAndUser db o.assetId buyer with
                | some buyerToken =>
                  rw [hT] at h
                  simp only [Except.ok.injEq] at h
                  subst h
                  constructor
                  · rw [balance_createPriceHistory, balance_createTransfer,
                      balance_updateOrderStatus,
                      balance_some (getTBAU_upsert_found hT _ _), balance_some hT]
                  · rw [balance_createPriceHistory, balance_createTransfer,
                      balance_updateOrderStatus]
                    refine balance_updateTokenCostBasis_other ?_
                    intro s hs hc
                    have hsmem := getTBAU_mem hs
                    have hbmem := getTBAU_mem hT
                    have : s = buyerToken :=
                      List.inj_on_of_nodup_map hwf.1 hsmem.1 hbmem.1 hc
                    rw [this] at hsmem
                    exact hself (hbmem.2.2 ▸ hsmem.2.2).symm
                | none =>
                  rw [hT] at h
                  simp only [Except.ok.injEq] at h
                  subst h
                  constructor
                  · rw [balance_createPriceHistory, balance_createTransfer,
                      balance_updateOrderStatus,
                      balance_some (getTBAU_upsert_new hT _ _), balance_none hT]
                    ring
                  · rw [balance_createPriceHistory, balance_createTransfer,
                      balance_updateOrderStatus]
                    unfold balance
                    rw [getTBAU_createToken_other hself]
        · rw [if_pos (by simp [hap])] at h; cases h
      · rw [if_pos (by simp [hst])] at h; cases h

/-- Witness for escrow_correct: the concrete order creation on dbSeed
debits exactly 20 from the seller. -/
theorem escrow_correct_witness :
    balance dbSeedAfterOrder 1 1 = balance dbSeed 1 1 - 20 ∧
    Storage.getOrder dbSeedAfterOrder 1 =
      some ⟨1, 1, none, 1, 20, 500, .OPEN, .PENDING⟩ :=
  (escrow_correct dbSeed (by decide)).1 1 1 20 500 dbSeedAfterOrder 1 (by decide)

/-! ## Order state machine -/

/-- Claim C5: once an order is FILLED or CANCELLED, every
status-changing operation — fill, cancel, admin approve, admin
reject — fails (each handler returns an error before any write, so the
state, in particular the order's status, is unchanged). -/
theorem terminal_state_immutable (db : DB) (oid : Nat) (o : Order)
    (ho : Storage.getOrder db oid = some o)
    (hterm : o.status = OrderStatus.FILLED ∨ o.status = OrderStatus.CANCELLED) :
    (∀ uid, ∃ e, fillOrder db uid oid = .error e) ∧
    (∀ uid, ∃ e, cancelOrder db uid oid = .error e) ∧
    (∃ e, approveOrder db oid = .error e) ∧
    (∃ e, rejectOrder db oid = .error e) := by
  have hst : o.status ≠ OrderStatus.OPEN := by
    rcases hterm with h | h <;> simp [h]
  refine ⟨?_, ?_, ?_, ?_⟩
  · intro uid
    unfold fillOrder
    cases hM : kycApprovedMiddleware db uid with
    | error e => exact ⟨e, rfl⟩
    | ok u =>
      rw [ho]
      simp only [] 
      rw [if_pos hst]
      exact ⟨_, rfl⟩
  · intro uid
    unfold cancelOrder
    cases hM : kycApprovedMiddleware db uid with
    | error e => exact ⟨e, rfl⟩
    | ok u =>
      rw [ho]
      simp only []
      rw [if_pos hst]
      exact ⟨_, rfl⟩
  · unfold approveOrder
    rw [ho]
    simp only []
    rw [if_pos hst]
    exact ⟨_, rfl⟩
  · unfold rejectOrder
    rw [ho]
    simp only []
    rw [if_pos hst]
    exact ⟨_, rfl⟩

/-- Witness for terminal_state_immutable on a concrete CANCELLED order. -/
def dbCancelled : DB :=
  ⟨[⟨1, .APPROVED, false, .INVESTOR⟩],
   [⟨1, 100, 50, 100⟩],
   [⟨1, 1, 1, 30, 3000⟩],
   [⟨1, 1, none, 1, 20, 500, .CANCELLED, .REJECTED⟩],
   [], [], 2, 2⟩

theorem terminal_state_immutable_witness :
    ∃ e, approveOrder dbCancelled 1 = .error e :=
  (terminal_state_immutable dbCancelled 1 ⟨1, 1, none, 1, 20, 500, .CANCELLED, .REJECTED⟩
    (by decide) (Or.inr rfl)).2.2.1

/-- Claim C6: a fill attempt by the order's own seller always fails
(with the dedicated self-trade error whenever the order is fillable at
all, i.e. OPEN, APPROVED, and the caller passes the KYC gate); the
handler returns before any write, so balances, order status, transfers
and price history are unchanged. -/
theorem fill_no_self_trade (db : DB) (oid uid : Nat) (o : Order)
    (ho : Storage.getOrder db oid = some o)
    (hself : o.sellerId = uid) :
    (∃ e, fillOrder db uid oid = .error e) ∧
    (∀ u, Storage.getUser db uid = some u → u.kycStatus = KycStatus.APPROVED →
      u.isFrozen = false → o.status = OrderStatus.OPEN →
      o.approvalStatus = ApprovalStatus.APPROVED →
      fillOrder db uid oid = Except.error ApiError.selfTrade) := by
  constructor
  · unfold fillOrder
    cases hM : kycApprovedMiddleware db uid with
    | error e => exact ⟨e, rfl⟩
    | ok u =>
      rw [ho]
      simp only []
      by_cases hst : o.status = OrderStatus.OPEN
      · rw [if_neg (by simp [hst])]
        by_cases hap : o.approvalStatus = ApprovalStatus.APPROVED
        · rw [if_neg (by simp [hap]), if_pos hself]
          exact ⟨_, rfl⟩
        · rw [if_pos (by simp [hap])]
          exact ⟨_, rfl⟩
      · rw [if_pos (by simp [hst])]
        exact ⟨_, rfl⟩
  · intro u hu hk hf hst hap
    have hM : kycApprovedMiddleware db uid = Except.ok u := by
      unfold kycApprovedMiddleware
      simp only [hu]
      rw [if_neg (by simp [hk]), if_neg (by simp [hf])]
    unfold fillOrder
    rw [hM, ho]
    simp only []
    rw [if_neg (by simp [hst]), if_neg (by simp [hap]), if_pos hself]

/-- Witness for fill_no_self_trade: the seller of the OPEN order in
dbSeedAfterOrder cannot fill it. -/
theorem fill_no_self_trade_witness :
    ∃ e, fillOrder dbSeedAfterOrder 1 1 = .error e :=
  (fill_no_self_trade dbSeedAfterOrder 1 1 ⟨1, 1, none, 1, 20, 500, .OPEN, .PENDING⟩
    (by decide) rfl).1

/-! ## Cancel correctness -/

theorem getOrder_updateTokenCostBasis (db : DB) (i : Nat) (cb am : Int) (oid : Nat) :
    Storage.getOrder (Storage.updateTokenCostBasis db i cb am) oid =
      Storage.getOrder db oid := rfl

theorem getOrder_createToken (db : DB) (x u : Nat) (am cb : Int) (oid : Nat) :
    Storage.getOrder (Storage.createToken db x u am cb) oid =
      Storage.getOrder db oid := rfl

theorem statusOf_updateOrderStatus_self {db : DB} {oid : Nat} {o : Order}
    (ho : Storage.getOrder db oid = some o) (st : OrderStatus) (b : Option Nat) :
    statusOf (Storage.updateOrderStatus db o.id st b) oid = some st := by
  unfold statusOf
  rw [getOrder_updateOrderStatus, ho]
  simp

theorem kycApprovedMiddleware_ok {db : DB} {uid : Nat} {u : User} :
    kycApprovedMiddleware db uid = Except.ok u ↔
      (Storage.getUser db uid = some u ∧ u.kycStatus = KycStatus.APPROVED ∧
        u.isFrozen = false) := by
  unfold kycApprovedMiddleware
  constructor
  · intro h
    cases hu : Storage.getUser db uid with
    | none => rw [hu] at h; cases h
    | some v =>
      rw [hu] at h
      simp only [] at h
      by_cases hk : v.kycStatus = KycStatus.APPROVED
      · rw [if_neg (by simp [hk])] at h
        by_cases hf : v.isFrozen = true
        · rw [if_pos hf] at h; cases h
        · rw [if_neg hf] at h
          simp only [Except.ok.injEq] at h
          subst h
          exact ⟨rfl, hk, by simpa using hf⟩
      · rw [if_pos (by simp [hk])] at h; cases h
  · rintro ⟨hu, hk, hf⟩
    simp only [hu]
    rw [if_neg (by simp [hk]), if_neg (by simp [hf])]

/-- Claim C7 (amended): cancelOrder succeeds exactly when the caller
passes the KYC gate (exists, APPROVED, not frozen) AND is the order's
seller AND the order is OPEN; on success the order becomes CANCELLED,
the escrowed tokenAmount returns to the seller's balance, and the
seller's cost basis grows by tokenAmount * current navPrice. -/
theorem cancel_correct (db : DB) (oid caller : Nat) (o : Order)
    (ho : Storage.getOrder db oid = some o) :
    ((∃ db2, cancelOrder db caller oid = .ok db2) ↔
      (∃ u, Storage.getUser db caller = some u ∧ u.kycStatus = KycStatus.APPROVED ∧
        u.isFrozen = false ∧ o.sellerId = caller ∧ o.status = OrderStatus.OPEN)) ∧
    (∀ db2, cancelOrder db caller oid = .ok db2 →
      statusOf db2 oid = some OrderStatus.CANCELLED ∧
      balance db2 o.assetId caller = balance db o.assetId caller + o.tokenAmount ∧
      costBasisOf db2 o.assetId caller =
        costBasisOf db o.assetId caller + navOf db o.assetId * o.tokenAmount) := by
  constructor
  · constructor
    · rintro ⟨db2, h⟩
      unfold cancelOrder at h
      cases hM : kycApprovedMiddleware db caller with
      | error e => rw [hM] at h; cases h
      | ok u =>
        obtain ⟨hu, hk, hf⟩ := kycApprovedMiddleware_ok.mp hM
        rw [hM, ho] at h
        simp only [] at h
        by_cases hst : o.status = OrderStatus.OPEN
        · by_cases hsell : o.sellerId = caller
          · exact ⟨u, hu, hk, hf, hsell, hst⟩
          · rw [if_neg (by simp [hst]), if_pos (by simp [hsell])] at h
            cases h
        · rw [if_pos (by simp [hst])] at h
          cases h
    · rintro ⟨u, hu, hk, hf, hsell, hst⟩
      have hM : kycApprovedMiddleware db caller = Except.ok u :=
        kycApprovedMiddleware_ok.mpr ⟨hu, hk, hf⟩
      unfold cancelOrder
      rw [hM, ho]
      simp only []
      rw [if_neg (by simp [hst]), if_neg (by simp [hsell])]
      cases hT : Storage.getTokenByAssetAndUser db o.assetId caller with
      | some token => exact ⟨_, rfl⟩
      | none => exact ⟨_, rfl⟩
  · intro db2 h
    unfold cancelOrder at h
    cases hM : kycApprovedMiddleware db caller with
    | error e => rw [hM] at h; cases h
    | ok u =>
      rw [hM, ho] at h
      simp only [] at h
      by_cases hst : o.status = OrderStatus.OPEN
      · by_cases hsell : o.sellerId = caller
        · rw [if_neg (by simp [hst]), if_neg (by simp [hsell])] at h
          cases hA : Storage.getAsset db o.assetId with
          | some asset =>
            rw [hA] at h
            cases hT : Storage.getTokenByAssetAndUser db o.assetId caller with
            | some token =>
              rw [hT] at h
              simp only [Except.ok.injEq] at h
              subst h
              have ho1 : Storage.getOrder
                  (Storage.updateTokenCostBasis db token.id
                    (token.costBasis + asset.navPrice * o.tokenAmount)
                    (token.amount + o.tokenAmount)) oid = some o := ho
              refine ⟨statusOf_updateOrderStatus_self ho1 _ _, ?_, ?_⟩
              · rw [balance_updateOrderStatus,
                  balance_some (getTBAU_upsert_found hT _ _), balance_some hT]
              · rw [costBasisOf_updateOrderStatus,
                  costBasisOf_some (getTBAU_upsert_found hT _ _), costBasisOf_some hT]
                unfold navOf
                rw [hA]
            | none =>
              rw [hT] at h
              simp only [Except.ok.injEq] at h
              subst h
              have ho1 : Storage.getOrder
                  (Storage.createToken db o.assetId caller o.tokenAmount
                    (asset.navPrice * o.tokenAmount)) oid = some o := ho
              refine ⟨statusOf_updateOrderStatus_self ho1 _ _, ?_, ?_⟩
              · rw [balance_updateOrderStatus,
                  balance_some (getTBAU_upsert_new hT _ _), balance_none hT]
                ring
              · rw [costBasisOf_updateOrderStatus,
                  costBasisOf_some (getTBAU_upsert_new hT _ _), costBasisOf_none hT]
                unfold navOf
                rw [hA]
                ring
          | none =>
            rw [hA] at h
            cases hT : Storage.getTokenByAssetAndUser db o.assetId caller with
            | some token =>
              rw [hT] at h
              simp only [Except.ok.injEq] at h
              subst h
              have ho1 : Storage.getOrder
                  (Storage.updateTokenCostBasis db token.id
                    (token.costBasis + 0 * o.tokenAmount)
                    (token.amount + o.tokenAmount)) oid = some o := ho
              refine ⟨statusOf_updateOrderStatus_self ho1 _ _, ?_, ?_⟩
              · rw [balance_updateOrderStatus,
                  balance_some (getTBAU_upsert_found hT _ _), balance_some hT]
              · rw [costBasisOf_updateOrderStatus,
                  costBasisOf_some (getTBAU_upsert_found hT _ _), costBasisOf_some hT]
                unfold navOf
                rw [hA]
            | none =>
              rw [hT] at h
              simp only [Except.ok.injEq] at h
              subst h
              have ho1 : Storage.getOrder
                  (Storage.createToken db o.assetId caller o.tokenAmount
                    (0 * o.tokenAmount)) oid = some o := ho
              refine ⟨statusOf_updateOrderStatus_self ho1 _ _, ?_, ?_⟩
              · rw [balance_updateOrderStatus,
                  balance_some (getTBAU_upsert_new hT _ _), balance_none hT]
                ring
              · rw [costBasisOf_updateOrderStatus,
                  costBasisOf_some (getTBAU_upsert_new hT _ _), costBasisOf_none hT]
                unfold navOf
                rw [hA]
                ring
        · rw [if_neg (by simp [hst]), if_pos (by simp [hsell])] at h
          cases h
      · rw [if_pos (by simp [hst])] at h
        cases h

/-- Witness for cancel_correct: the eligible seller of dbSeedAfterOrder
can cancel their OPEN order. -/
theorem cancel_correct_witness :
    ∃ db2, cancelOrder dbSeedAfterOrder 1 1 = .ok db2 :=
  ((cancel_correct dbSeedAfterOrder 1 1 ⟨1, 1, none, 1, 20, 500, .OPEN, .PENDING⟩
      (by decide)).1).mpr
    ⟨⟨1, .APPROVED, false, .INVESTOR⟩, by decide, rfl, rfl, rfl, rfl⟩

/-! ## Zero-amount row handling -/

theorem getToken_createTransfer (db : DB) (tr : Transfer) (i : Nat) :
    Storage.getToken (Storage.createTransfer db tr) i = Storage.getToken db i := rfl

theorem getToken_updateAssetRemainingSupply (db : DB) (x : Nat) (r : Int) (i : Nat) :
    Storage.getToken (Storage.updateAssetRemainingSupply db x r) i =
      Storage.getToken db i := rfl

/-- Claim C8 (amended): revoke and the admin amount adjustment delete
the tokens row when the resulting amount is exactly zero, but the
order-creation escrow debit does not — it leaves the row in place with
amount 0. -/
theorem zero_row_handling (db : DB) :
    (∀ tid : Nat, ∀ n : Int, ∀ t : Token, ∀ db2 : DB,
      Storage.getToken db tid = some t → t.amount = n →
      revoke db tid n = .ok db2 → Storage.getToken db2 tid = none) ∧
    (∀ tid : Nat, ∀ r : Option TransferReason, ∀ db2 : DB,
      adminSetTokenAmount db tid 0 r = .ok db2 → Storage.getToken db2 tid = none) ∧
    (∀ caller aid : Nat, ∀ p : Int, ∀ t : Token, ∀ db2 : DB, ∀ oid : Nat,
      Storage.getTokenByAssetAndUser db aid caller = some t →
      createOrder db caller aid t.amount p = .ok (db2, oid) →
      Storage.getTokenByAssetAndUser db2 aid caller =
        some { t with
               amount := 0,
               costBasis := escrowCostBasis t.costBasis t.amount t.amount }) := by
  refine ⟨?_, ?_, ?_⟩
  · -- revoke at full balance deletes the row
    intro tid n t db2 ht hamt h
    unfold revoke at h
    by_cases hn : n ≤ 0
    · rw [if_pos hn] at h; cases h
    · rw [if_neg hn, ht] at h
      simp only [] at h
      by_cases hlt : t.amount < n
      · rw [if_pos hlt] at h; cases h
      · rw [if_neg hlt] at h
        cases hA : Storage.getAsset db t.assetId with
        | none => rw [hA] at h; cases h
        | some asset =>
          rw [hA] at h
          simp only [] at h
          rw [if_pos hamt] at h
          simp only [Except.ok.injEq] at h
          subst h
          rw [getToken_createTransfer, getToken_updateAssetRemainingSupply]
          exact getToken_deleteToken db tid
  · -- admin set-to-zero deletes the row
    intro tid r db2 h
    unfold adminSetTokenAmount at h
    rw [if_neg (by simp)] at h
    cases ht : Storage.getToken db tid with
    | none => rw [ht] at h; cases h
    | some t =>
      rw [ht] at h
      simp only [] at h
      cases hA : Storage.getAsset db t.assetId with
      | none => rw [hA] at h; cases h
      | some asset =>
        rw [hA] at h
        simp only [] at h
        by_cases hg : 0 < 0 - t.amount ∧ asset.remainingSupply < 0 - t.amount
        · rw [if_pos hg] at h; cases h
        · rw [if_neg hg] at h
          by_cases hd : 0 - t.amount ≠ 0
          · rw [if_pos hd] at h
            simp only [Except.ok.injEq] at h
            subst h
            rw [getToken_createTransfer, getToken_updateAssetRemainingSupply]
            exact getToken_deleteToken db tid
          · rw [if_neg hd] at h
            simp only [Except.ok.injEq] at h
            subst h
            rw [getToken_updateAssetRemainingSupply]
            exact getToken_deleteToken db tid
  · -- escrowing the whole balance keeps a zero-amount row
    intro caller aid p t db2 oid ht h
    unfold createOrder at h
    cases hM : kycApprovedMiddleware db caller with
    | error e => rw [hM] at h; cases h
    | ok u =>
      rw [hM] at h
      simp only [] at h
      by_cases hz : t.amount = 0 ∨ p = 0
      · rw [if_pos hz] at h; cases h
      · rw [if_neg hz] at h
        rw [ht] at h
        simp only [] at h
        rw [if_neg (lt_irrefl t.amount)] at h
        simp only [Except.ok.injEq] at h
        have hdb : db2 = (Storage.createOrder
            (Storage.updateTokenCostBasis db t.id
              (escrowCostBasis t.costBasis t.amount t.amount)
              (t.amount - t.amount)) caller aid t.amount p).1 := by rw [h]
        subst hdb
        show Storage.getTokenByAssetAndUser
          (Storage.updateTokenCostBasis db t.id
            (escrowCostBasis t.costBasis t.amount t.amount)
            (t.amount - t.amount)) aid caller = _
        rw [getTBAU_upsert_found ht]
        rw [sub_self]

/-- dbSeed after revoking the full 50-token balance. -/
def dbSeedRevoked : DB :=
  ⟨[⟨1, .APPROVED, false, .INVESTOR⟩],
   [⟨1, 100, 100, 100⟩],
   [], [],
   [⟨1, some 1, none, 50, .ADMIN_REVOKE⟩],
   [], 2, 1⟩

/-- Witness for zero_row_handling: revoking the whole balance in
dbSeed removes the tokens row. -/
theorem zero_row_handling_witness :
    Storage.getToken dbSeedRevoked 1 = none :=
  (zero_row_handling dbSeed).1 1 50 ⟨1, 1, 1, 50, 5000⟩ dbSeedRevoked
    (by decide) (by decide) (by decide)

/-! ## Audit trail -/

/-- Claim C3 (amended): mint, revoke, trade-fill and the admin amount
adjustment each append exactly one Transfer row whose tokenAmount is
the absolute balance delta and whose reason matches the operation
(MINT, ADMIN_REVOKE, TRADE, and the admin default by delta sign); but
the balance debit at order creation and the balance credit at order
cancellation or rejection append NO Transfer row at all. -/
theorem audit_trail (db : DB) :
    (∀ aid uid : Nat, ∀ n : Int, ∀ db2 : DB, mint db aid uid n = .ok db2 →
      db2.transfers = db.transfers ++ [⟨aid, none, some uid, n, .MINT⟩]) ∧
    (∀ tid : Nat, ∀ n : Int, ∀ t : Token, ∀ db2 : DB,
      Storage.getToken db tid = some t → revoke db tid n = .ok db2 →
      db2.transfers = db.transfers ++
        [⟨t.assetId, some t.ownerId, none, n, .ADMIN_REVOKE⟩]) ∧
    (∀ buyer oid : Nat, ∀ o : Order, ∀ db2 : DB,
      Storage.getOrder db oid = some o → fillOrder db buyer oid = .ok db2 →
      db2.transfers = db.transfers ++
        [⟨o.assetId, some o.sellerId, some buyer, o.tokenAmount, .TRADE⟩]) ∧
    (∀ tid : Nat, ∀ n : Int, ∀ r : Option TransferReason, ∀ t : Token, ∀ db2 : DB,
      Storage.getToken db tid = some t → adminSetTokenAmount db tid n r = .ok db2 →
      (n ≠ t.amount →
        db2.transfers = db.transfers ++
          [⟨t.assetId, if n - t.amount < 0 then some t.ownerId else none,
            if 0 < n - t.amount then some t.ownerId else none, |n - t.amount|,
            r.getD (if 0 < n - t.amount then .MINT else .ADMIN_REVOKE)⟩]) ∧
      (n = t.amount → db2.transfers = db.transfers)) ∧
    (∀ caller aid : Nat, ∀ n p : Int, ∀ db2 : DB, ∀ oid : Nat,
      createOrder db caller aid n p = .ok (db2, oid) →
      balance db2 aid caller = balance db aid caller - n ∧
      db2.transfers = db.transfers) ∧
    (∀ caller oid : Nat, ∀ db2 : DB, cancelOrder db caller oid = .ok db2 →
      db2.transfers = db.transfers) ∧
    (∀ oid : Nat, ∀ db2 : DB, rejectOrder db oid = .ok db2 →
      db2.transfers = db.transfers) := by
  refine ⟨?_, ?_, ?_, ?_, ?_, ?_, ?_⟩
  · -- mint appends one MINT row
    intro aid uid n db2 h
    unfold mint at h
    by_cases hn : n ≤ 0
    · rw [if_pos hn] at h; cases h
    · rw [if_neg hn] at h
      cases ha : Storage.getAsset db aid with
      | none => rw [ha] at h; cases h
      | some asset =>
        rw [ha] at h
        cases hu : Storage.getUser db uid with
        | none => rw [hu] at h; cases h
        | some user =>
          rw [hu] at h
          simp only [] at h
          by_cases hk : user.kycStatus = KycStatus.APPROVED
          · by_cases hs : asset.remainingSupply < n
            · rw [if_neg (by simp [hk]), if_pos hs] at h; cases h
            · rw [if_neg (by simp [hk]), if_neg hs] at h
              cases hT : Storage.getTokenByAssetAndUser db aid uid with
              | some t0 =>
                rw [hT] at h
                simp only [Except.ok.injEq] at h
                subst h
                rw [transfers_createTransfer, transfers_updateAssetRemainingSupply,
                  transfers_updateTokenCostBasis]
              | none =>
                rw [hT] at h
                simp only [Except.ok.injEq] at h
                subst h
                rw [transfers_createTransfer, transfers_updateAssetRemainingSupply,
                  transfers_createToken]
          · rw [if_pos (by simp [hk])] at h; cases h
  · -- revoke appends one ADMIN_REVOKE row
    intro tid n t db2 ht h
    unfold revoke at h
    by_cases hn : n ≤ 0
    · rw [if_pos hn] at h; cases h
    · rw [if_neg hn, ht] at h
      simp only [] at h
      by_cases hlt : t.amount < n
      · rw [if_pos hlt] at h; cases h
      · rw [if_neg hlt] at h
        cases hA : Storage.getAsset db t.assetId with
        | none => rw [hA] at h; cases h
        | some asset =>
          rw [hA] at h
          simp only [] at h
          by_cases hamt : t.amount = n
          · rw [if_pos hamt] at h
            simp only [Except.ok.injEq] at h
            subst h
            rw [transfers_createTransfer, transfers_updateAssetRemainingSupply,
              transfers_deleteToken]
          · rw [if_neg hamt] at h
            simp only [Except.ok.injEq] at h
            subst h
            rw [transfers_createTransfer, transfers_updateAssetRemainingSupply,
              transfers_updateTokenAmount]
  · -- fill appends one TRADE row
    intro buyer oid o db2 ho h
    unfold fillOrder at h
    cases hM : kycApprovedMiddleware db buyer with
    | error e => rw [hM] at h; cases h
    | ok buyer0 =>
      rw [hM, ho] at h
      simp only [] at h
      by_cases hst : o.status = OrderStatus.OPEN
      · rw [if_neg (by simp [hst])] at h
        by_cases hap : o.approvalStatus = ApprovalStatus.APPROVED
        · rw [if_neg (by simp [hap])] at h
          by_cases hself : o.sellerId = buyer
          · rw [if_pos hself] at h; cases h
          · rw [if_neg hself] at h
            cases hS : Storage.getUser db o.sellerId with
            | none => rw [hS] at h; cases h
            | some seller =>
              rw [hS] at h
              simp only [] at h
              by_cases hel : seller.kycStatus ≠ KycStatus.APPROVED ∨ seller.isFrozen = true
              · rw [if_pos (by simpa using hel)] at h; cases h
              · rw [if_neg (by simpa using hel)] at h
                cases hT : Storage.getTokenByAssetAndUser db o.assetId buyer with
                | some buyerToken =>
                  rw [hT] at h
                  simp only [Except.ok.injEq] at h
                  subst h
                  rw [transfers_createPriceHistory, transfers_createTransfer,
                    transfers_updateOrderStatus, transfers_updateTokenCostBasis]
                | none =>
                  rw [hT] at h
                  simp only [Except.ok.injEq] at h
                  subst h
                  rw [transfers_createPriceHistory, transfers_createTransfer,
                    transfers_updateOrderStatus, transfers_createToken]
        · rw [if_pos (by simp [hap])] at h; cases h
      · rw [if_pos (by simp [hst])] at h; cases h
  · -- admin set-amount appends one row exactly when the amount changes
    intro tid n r t db2 ht h
    unfold adminSetTokenAmount at h
    by_cases hneg : n < 0
    · rw [if_pos hneg] at h; cases h
    · rw [if_neg hneg, ht] at h
      simp only [] at h
      cases hA : Storage.getAsset db t.assetId with
      | none => rw [hA] at h; cases h
      | some asset =>
        rw [hA] at h
        simp only [] at h
        by_cases hg : 0 < n - t.amount ∧ asset.remainingSupply < n - t.amount
        · rw [if_pos hg] at h; cases h
        · rw [if_neg hg] at h
          by_cases hd : n - t.amount ≠ 0
          · rw [if_pos hd] at h
            by_cases hz : n = 0
            · rw [if_pos hz] at h
              simp only [Except.ok.injEq] at h
              subst h
              constructor
              · intro _
                subst hz
                rw [transfers_createTransfer, transfers_updateAssetRemainingSupply,
                  transfers_deleteToken]
              · intro hc
                exact absurd (by rw [hc]; ring) hd
            · rw [if_neg hz] at h
              simp only [Except.ok.injEq] at h
              subst h
              constructor
              · intro _
                rw [transfers_createTransfer, transfers_updateAssetRemainingSupply,
                  transfers_updateTokenAmount]
              · intro hc
                exact absurd (by rw [hc]; ring) hd
          · rw [if_neg hd] at h
            by_cases hz : n = 0
            · rw [if_pos hz] at h
              simp only [Except.ok.injEq] at h
              subst h
              constructor
              · intro hc
                exact absurd (sub_ne_zero_of_ne hc) hd
              · intro _
                rw [transfers_updateAssetRemainingSupply, transfers_deleteToken]
            · rw [if_neg hz] at h
              simp only [Except.ok.injEq] at h
              subst h
              constructor
              · intro hc
                exact absurd (sub_ne_zero_of_ne hc) hd
              · intro _
                rw [transfers_updateAssetRemainingSupply, transfers_updateTokenAmount]
  · -- order creation changes the balance yet appends nothing
    intro caller aid n p db2 oid h
    unfold createOrder at h
    cases hM : kycApprovedMiddleware db caller with
    | error e => rw [hM] at h; cases h
    | ok caller0 =>
      rw [hM] at h
      simp only [] at h
      by_cases hz : n = 0 ∨ p = 0
      · rw [if_pos hz] at h; cases h
      · rw [if_neg hz] at h
        cases hT : Storage.getTokenByAssetAndUser db aid caller with
        | none => rw [hT] at h; cases h
        | some token =>
          rw [hT] at h
          simp only [] at h
          by_cases hlt : token.amount < n
          · rw [if_pos hlt] at h; cases h
          · rw [if_neg hlt] at h
            simp only [Except.ok.injEq] at h
            have hdb : db2 = (Storage.createOrder
                (Storage.updateTokenCostBasis db token.id
                  (escrowCostBasis token.costBasis token.amount n)
                  (token.amount - n)) caller aid n p).1 := by rw [h]
            subst hdb
            constructor
            · rw [balance_createOrder,
                balance_some (getTBAU_upsert_found hT _ _), balance_some hT]
            · rw [transfers_createOrder, transfers_updateTokenCostBasis]
  · -- cancel appends nothing
    intro caller oid db2 h
    unfold cancelOrder at h
    cases hM : kycApprovedMiddleware db caller with
    | error e => rw [hM] at h; cases h
    | ok u =>
      rw [hM] at h
      cases ho : Storage.getOrder db oid with
      | none => rw [ho] at h; cases h
      | some o =>
        rw [ho] at h
        simp only [] at h
        by_cases hst : o.status = OrderStatus.OPEN
        · by_cases hsell : o.sellerId = caller
          · rw [if_neg (by simp [hst]), if_neg (by simp [hsell])] at h
            cases hA : Storage.getAsset db o.assetId with
            | some asset =>
              rw [hA] at h
              cases hT : Storage.getTokenByAssetAndUser db o.assetId caller with
              | some token =>
                rw [hT] at h
                simp only [Except.ok.injEq] at h
                subst h
                rw [transfers_updateOrderStatus, transfers_updateTokenCostBasis]
              | none =>
                rw [hT] at h
                simp only [Except.ok.injEq] at h
                subst h
                rw [transfers_updateOrderStatus, transfers_createToken]
            | none =>
              rw [hA] at h
              cases hT : Storage.getTokenByAssetAndUser db o.assetId caller with
              | some token =>
                rw [hT] at h
                simp only [Except.ok.injEq] at h
                subst h
                rw [transfers_updateOrderStatus, transfers_updateTokenCostBasis]
              | none =>
                rw [hT] at h
                simp only [Except.ok.injEq] at h
                subst h
                rw [transfers_updateOrderStatus, transfers_createToken]
          · rw [if_neg (by simp [hst]), if_pos (by simp [hsell])] at h
            cases h
        · rw [if_pos (by simp [hst])] at h
          cases h
  · -- reject appends nothing
    intro oid db2 h
    unfold rejectOrder at h
    cases ho : Storage.getOrder db oid with
    | none => rw [ho] at h; cases h
    | some o =>
      rw [ho] at h
      simp only [] at h
      by_cases hst : o.status = OrderStatus.OPEN
      · rw [if_neg (by simp [hst])] at h
        rw [getTBAU_updateOrderStatus, getTBAU_updateOrderApprovalStatus] at h
        cases hA : Storage.getAsset db o.assetId with
        | some asset =>
          rw [show Storage.getAsset (Storage.updateOrderStatus
              (Storage.updateOrderApprovalStatus db o.id ApprovalStatus.REJECTED)
              o.id OrderStatus.CANCELLED none) o.assetId =
              Storage.getAsset db o.assetId from rfl, hA] at h
          cases hT : Storage.getTokenByAssetAndUser db o.assetId o.sellerId with
          | some token =>
            rw [hT] at h
            simp only [Except.ok.injEq] at h
            subst h
            rw [transfers_updateTokenCostBasis, transfers_updateOrderStatus,
              transfers_updateOrderApprovalStatus]
          | none =>
            rw [hT] at h
            simp only [Except.ok.injEq] at h
            subst h
            rw [transfers_createToken, transfers_updateOrderStatus,
              transfers_updateOrderApprovalStatus]
        | none =>
          rw [show Storage.getAsset (Storage.updateOrderStatus
              (Storage.updateOrderApprovalStatus db o.id ApprovalStatus.REJECTED)
              o.id OrderStatus.CANCELLED none) o.assetId =
              Storage.getAsset db o.assetId from rfl, hA] at h
          cases hT : Storage.getTokenByAssetAndUser db o.assetId o.sellerId with
          | some token =>
            rw [hT] at h
            simp only [Except.ok.injEq] at h
            subst h
            rw [transfers_updateTokenCostBasis, transfers_updateOrderStatus,
              transfers_updateOrderApprovalStatus]
          | none =>
            rw [hT] at h
            simp only [Except.ok.injEq] at h
            subst h
            rw [transfers_createToken, transfers_updateOrderStatus,
              transfers_updateOrderApprovalStatus]
      · rw [if_pos (by simp [hst])] at h
        cases h

/-- dbSeed after minting 10 more tokens to the holder. -/
def dbSeedMinted : DB :=
  ⟨[⟨1, .APPROVED, false, .INVESTOR⟩],
   [⟨1, 100, 40, 100⟩],
   [⟨1, 1, 1, 60, 6000⟩],
   [],
   [⟨1, none, some 1, 10, .MINT⟩],
   [], 2, 1⟩

/-- Witness for audit_trail: the concrete mint on dbSeed appends
exactly one MINT transfer. -/
theorem audit_trail_witness :
    dbSeedMinted.transfers = dbSeed.transfers ++ [⟨1, none, some 1, 10, .MINT⟩] :=
  (audit_trail dbSeed).1 1 1 10 dbSeedMinted (by decide)

/-! ## Support for the sum invariant -/

instance : LawfulBEq OrderStatus where
  eq_of_beq := by intro a b h; cases a <;> cases b <;> first | rfl | cases h
  rfl := by intro a; cases a <;> rfl

theorem sumTokens_updateTokenCostBasis {db : DB} {i : Nat} {t0 : Token}
    (hnd : (db.tokens.map Token.id).Nodup) (ht0 : t0 ∈ db.tokens) (hid : t0.id = i)
    (cb am : Int) (a : Nat) :
    sumTokens (Storage.updateTokenCostBasis db i cb am) a =
      sumTokens db a + (if t0.assetId == a then am - t0.amount else 0) := by
  have h := LedgerList.sum_updAt Token.id
      (fun t => if t.assetId == a then t.amount else 0) db.tokens i
      (fun t => { t with costBasis := cb, amount := am }) hnd t0 ht0 hid
  have h2 : sumTokens (Storage.updateTokenCostBasis db i cb am) a =
      sumTokens db a + ((if t0.assetId == a then am else 0) -
        (if t0.assetId == a then t0.amount else 0)) := h
  rw [h2]
  split <;> ring

theorem sumTokens_updateTokenAmount {db : DB} {i : Nat} {t0 : Token}
    (hnd : (db.tokens.map Token.id).Nodup) (ht0 : t0 ∈ db.tokens) (hid : t0.id = i)
    (am : Int) (a : Nat) :
    sumTokens (Storage.updateTokenAmount db i am) a =
      sumTokens db a + (if t0.assetId == a then am - t0.amount else 0) := by
  have h := LedgerList.sum_updAt Token.id
      (fun t => if t.assetId == a then t.amount else 0) db.tokens i
      (fun t => { t with amount := am }) hnd t0 ht0 hid
  have h2 : sumTokens (Storage.updateTokenAmount db i am) a =
      sumTokens db a + ((if t0.assetId == a then am else 0) -
        (if t0.assetId == a then t0.amount else 0)) := h
  rw [h2]
  split <;> ring

theorem sumTokens_deleteToken {db : DB} {i : Nat} {t0 : Token}
    (hnd : (db.tokens.map Token.id).Nodup) (ht0 : t0 ∈ db.tokens) (hid : t0.id = i)
    (a : Nat) :
    sumTokens (Storage.deleteToken db i) a =
      sumTokens db a - (if t0.assetId == a then t0.amount else 0) := by
  exact LedgerList.sum_filterNe Token.id
    (fun t => if t.assetId == a then t.amount else 0) db.tokens i hnd t0 ht0 hid

theorem sumTokens_createToken (db : DB) (x u : Nat) (am cb : Int) (a : Nat) :
    sumTokens (Storage.createToken db x u am cb) a =
      sumTokens db a + (if x == a then am else 0) := by
  unfold sumTokens
  show ((db.tokens ++ [(⟨db.nextTokenId, x, u, am, cb⟩ : Token)]).map
      (fun t : Token => if t.assetId == a then t.amount else 0)).sum = _
  rw [LedgerList.sum_map_append (fun t => if t.assetId == a then t.amount else 0)
    db.tokens ⟨db.nextTokenId, x, u, am, cb⟩]

theorem sumTokens_updateAssetRemainingSupply (db : DB) (i : Nat) (r : Int) (a : Nat) :
    sumTokens (Storage.updateAssetRemainingSupply db i r) a = sumTokens db a := rfl

theorem sumTokens_createTransfer (db : DB) (tr : Transfer) (a : Nat) :
    sumTokens (Storage.createTransfer db tr) a = sumTokens db a := rfl

theorem sumTokens_createPriceHistory (db : DB) (x : Nat) (p v : Int) (o : Option Nat)
    (a : Nat) : sumTokens (Storage.createPriceHistory db x p v o) a = sumTokens db a := rfl

theorem sumTokens_updateOrderStatus (db : DB) (i : Nat) (st : OrderStatus)
    (b : Option Nat) (a : Nat) :
    sumTokens (Storage.updateOrderStatus db i st b) a = sumTokens db a := rfl

theorem sumTokens_updateOrderApprovalStatus (db : DB) (i : Nat) (st : ApprovalStatus)
    (a : Nat) :
    sumTokens (Storage.updateOrderApprovalStatus db i st) a = sumTokens db a := rfl

theorem sumTokens_createOrder (db : DB) (s x : Nat) (n p : Int) (a : Nat) :
    sumTokens (Storage.createOrder db s x n p).1 a = sumTokens db a := rfl

theorem openEscrow_createOrder (db : DB) (s x : Nat) (n p : Int) (a : Nat) :
    openEscrow (Storage.createOrder db s x n p).1 a =
      openEscrow db a + (if x == a then n else 0) := by
  unfold openEscrow
  show ((db.orders ++
      [(⟨db.nextOrderId, s, none, x, n, p, OrderStatus.OPEN,
        ApprovalStatus.PENDING⟩ : Order)]).map
      (fun o : Order => if o.assetId == a && o.status == OrderStatus.OPEN
        then o.tokenAmount else 0)).sum = _
  rw [LedgerList.sum_map_append
    (fun o => if o.assetId == a && o.status == OrderStatus.OPEN then o.tokenAmount else 0)
    db.orders
    ⟨db.nextOrderId, s, none, x, n, p, OrderStatus.OPEN, ApprovalStatus.PENDING⟩]
  simp

theorem openEscrow_updateOrderStatus_nonopen {db : DB} {i : Nat} {o0 : Order}
    (hnd : (db.orders.map Order.id).Nodup) (ho0 : o0 ∈ db.orders) (hid : o0.id = i)
    {st : OrderStatus} (hst : st ≠ OrderStatus.OPEN) (b : Option Nat) (a : Nat) :
    openEscrow (Storage.updateOrderStatus db i st b) a =
      openEscrow db a -
        (if o0.assetId == a && o0.status == OrderStatus.OPEN then o0.tokenAmount else 0) := by
  have h := LedgerList.sum_updAt Order.id
      (fun o => if o.assetId == a && o.status == OrderStatus.OPEN then o.tokenAmount else 0)
      db.orders i
      (fun o => { o with
        status := st,
        buyerId := match b with | some v => some v | none => o.buyerId }) hnd o0 ho0 hid
  have h2 : openEscrow (Storage.updateOrderStatus db i st b) a =
      openEscrow db a +
        ((if o0.assetId == a && st == OrderStatus.OPEN then o0.tokenAmount else 0) -
         (if o0.assetId == a && o0.status == OrderStatus.OPEN then o0.tokenAmount else 0)) := h
  rw [h2]
  have hb : (st == OrderStatus.OPEN) = false := by
    rw [beq_eq_false_iff_ne]
    exact hst
  rw [hb]
  simp only [Bool.and_false, Bool.false_eq_true, if_false]
  ring

theorem openEscrow_updateOrderApprovalStatus (db : DB) (i : Nat) (st : ApprovalStatus)
    (a : Nat) :
    openEscrow (Storage.updateOrderApprovalStatus db i st) a = openEscrow db a := by
  have h : (LedgerList.updAt Order.id db.orders i
        (fun o => { o with approvalStatus := st })).map
      (fun o => if o.assetId == a && o.status == OrderStatus.OPEN then o.tokenAmount else 0) =
      db.orders.map
      (fun o => if o.assetId == a && o.status == OrderStatus.OPEN then o.tokenAmount else 0) :=
    LedgerList.map_updAt Order.id db.orders i _ _ (fun o => rfl)
  have h2 : openEscrow (Storage.updateOrderApprovalStatus db i st) a =
      ((LedgerList.updAt Order.id db.orders i
        (fun o => { o with approvalStatus := st })).map
      (fun o => if o.assetId == a && o.status == OrderStatus.OPEN then o.tokenAmount else 0)).sum := rfl
  rw [h2, h]
  rfl

theorem openEscrow_updateTokenCostBasis (db : DB) (i : Nat) (cb am : Int) (a : Nat) :
    openEscrow (Storage.updateTokenCostBasis db i cb am) a = openEscrow db a := rfl

theorem openEscrow_updateTokenAmount (db : DB) (i : Nat) (am : Int) (a : Nat) :
    openEscrow (Storage.updateTokenAmount db i am) a = openEscrow db a := rfl

theorem openEscrow_deleteToken (db : DB) (i : Nat) (a : Nat) :
    openEscrow (Storage.deleteToken db i) a = openEscrow db a := rfl

theorem openEscrow_createToken (db : DB) (x u : Nat) (am cb : Int) (a : Nat) :
    openEscrow (Storage.createToken db x u am cb) a = openEscrow db a := rfl

theorem openEscrow_updateAssetRemainingSupply (db : DB) (i : Nat) (r : Int) (a : Nat) :
    openEscrow (Storage.updateAssetRemainingSupply db i r) a = openEscrow db a := rfl

theorem openEscrow_createTransfer (db : DB) (tr : Transfer) (a : Nat) :
    openEscrow (Storage.createTransfer db tr) a = openEscrow db a := rfl

theorem openEscrow_createPriceHistory (db : DB) (x : Nat) (p v : Int) (o : Option Nat)
    (a : Nat) : openEscrow (Storage.createPriceHistory db x p v o) a = openEscrow db a := rfl

namespace LedgerList

theorem forall_mem_updAt {α : Type} (key : α → Nat) (l : List α) (i : Nat) (f : α → α)
    (P : α → Prop) (hf : ∀ t, P t → P (f t)) (h : ∀ t ∈ l, P t) :
    ∀ t ∈ updAt key l i f, P t := by
  intro t ht
  unfold updAt at ht
  obtain ⟨s, hs, heq⟩ := List.mem_map.mp ht
  subst heq
  split
  · exact hf s (h s hs)
  · exact h s hs

theorem nodup_map_append_notmem {α β : Type} (π : α → β) (l : List α) (x : α)
    (hnd : (l.map π).Nodup) (hx : ∀ t ∈ l, π t ≠ π x) :
    ((l ++ [x]).map π).Nodup := by
  rw [List.map_append]
  rw [List.nodup_append]
  refine ⟨hnd, List.nodup_singleton _, ?_⟩
  intro b hb hb2
  rw [List.map_singleton, List.mem_singleton] at hb2
  obtain ⟨t, ht, heq⟩ := List.mem_map.mp hb
  exact hx t ht (heq.trans hb2)

end LedgerList

theorem WF_updateTokenCostBasis (db : DB) (i : Nat) (cb am : Int) (hwf : WF db) :
    WF (Storage.updateTokenCostBasis db i cb am) := by
  unfold WF at hwf ⊢
  obtain ⟨h1, h2, h3, h4, h5, h6⟩ := hwf
  have e1 : (Storage.updateTokenCostBasis db i cb am).tokens.map Token.id =
      db.tokens.map Token.id :=
    LedgerList.map_updAt Token.id db.tokens i
      (fun t => { t with costBasis := cb, amount := am }) Token.id (fun t => rfl)
  have e2 : (Storage.updateTokenCostBasis db i cb am).tokens.map
        (fun t => (t.assetId, t.ownerId)) =
      db.tokens.map (fun t => (t.assetId, t.ownerId)) :=
    LedgerList.map_updAt Token.id db.tokens i
      (fun t => { t with costBasis := cb, amount := am }) _ (fun t => rfl)
  refine ⟨by rw [e1]; exact h1, by rw [e2]; exact h2, ?_, h4, h5, h6⟩
  exact LedgerList.forall_mem_updAt Token.id db.tokens i _ _ (fun t ht => ht) h3

theorem WF_updateTokenAmount (db : DB) (i : Nat) (am : Int) (hwf : WF db) :
    WF (Storage.updateTokenAmount db i am) := by
  unfold WF at hwf ⊢
  obtain ⟨h1, h2, h3, h4, h5, h6⟩ := hwf
  have e1 : (Storage.updateTokenAmount db i am).tokens.map Token.id =
      db.tokens.map Token.id :=
    LedgerList.map_updAt Token.id db.tokens i
      (fun t => { t with amount := am }) Token.id (fun t => rfl)
  have e2 : (Storage.updateTokenAmount db i am).tokens.map
        (fun t => (t.assetId, t.ownerId)) =
      db.tokens.map (fun t => (t.assetId, t.ownerId)) :=
    LedgerList.map_updAt Token.id db.tokens i
      (fun t => { t with amount := am }) _ (fun t => rfl)
  refine ⟨by rw [e1]; exact h1, by rw [e2]; exact h2, ?_, h4, h5, h6⟩
  exact LedgerList.forall_mem_updAt Token.id db.tokens i _ _ (fun t ht => ht) h3

theorem WF_deleteToken (db : DB) (i : Nat) (hwf : WF db) :
    WF (Storage.deleteToken db i) := by
  unfold WF at hwf ⊢
  obtain ⟨h1, h2, h3, h4, h5, h6⟩ := hwf
  have hsub : (Storage.deleteToken db i).tokens.Sublist db.tokens :=
    List.filter_sublist db.tokens
  refine ⟨List.Nodup.sublist (List.Sublist.map _ hsub) h1,
    List.Nodup.sublist (List.Sublist.map _ hsub) h2, ?_, h4, h5, h6⟩
  intro t ht
  exact h3 t (List.mem_filter.mp ht).1

theorem WF_createToken (db : DB) (a u : Nat) (am cb : Int)
    (hnone : Storage.getTokenByAssetAndUser db a u = none) (hwf : WF db) :
    WF (Storage.createToken db a u am cb) := by
  unfold WF at hwf ⊢
  obtain ⟨h1, h2, h3, h4, h5, h6⟩ := hwf
  unfold Storage.getTokenByAssetAndUser at hnone
  rw [List.find?_eq_none] at hnone
  refine ⟨?_, ?_, ?_, h4, h5, h6⟩
  · refine LedgerList.nodup_map_append_notmem Token.id db.tokens _ h1 ?_
    intro t ht
    exact Nat.ne_of_lt (h3 t ht)
  · refine LedgerList.nodup_map_append_notmem _ db.tokens _ h2 ?_
    intro t ht hc
    apply hnone t ht
    simp only [Prod.mk.injEq] at hc
    simp [hc.1, hc.2]
  · intro t ht
    have ht2 : t ∈ db.tokens ++ [(⟨db.nextTokenId, a, u, am, cb⟩ : Token)] := ht
    rw [List.mem_append] at ht2
    rcases ht2 with ht2 | ht2
    · exact Nat.lt_succ_of_lt (h3 t ht2)
    · rw [List.mem_singleton] at ht2
      subst ht2
      exact Nat.lt_succ_self _

theorem WF_updateAssetRemainingSupply (db : DB) (i : Nat) (r : Int) (hwf : WF db) :
    WF (Storage.updateAssetRemainingSupply db i r) := by
  unfold WF at hwf ⊢
  obtain ⟨h1, h2, h3, h4, h5, h6⟩ := hwf
  have e6 : (Storage.updateAssetRemainingSupply db i r).assets.map Asset.id =
      db.assets.map Asset.id :=
    LedgerList.map_updAt Asset.id db.assets i
      (fun x => { x with remainingSupply := r }) Asset.id (fun x => rfl)
  exact ⟨h1, h2, h3, h4, h5, by rw [e6]; exact h6⟩

theorem WF_updateOrderStatus (db : DB) (i : Nat) (st : OrderStatus) (b : Option Nat)
    (hwf : WF db) : WF (Storage.updateOrderStatus db i st b) := by
  unfold WF at hwf ⊢
  obtain ⟨h1, h2, h3, h4, h5, h6⟩ := hwf
  have e4 : (Storage.updateOrderStatus db i st b).orders.map Order.id =
      db.orders.map Order.id :=
    LedgerList.map_updAt Order.id db.orders i
      (fun o => { o with
        status := st,
        buyerId := match b with | some v => some v | none => o.buyerId })
      Order.id (fun o => rfl)
  refine ⟨h1, h2, h3, by rw [e4]; exact h4, ?_, h6⟩
  exact LedgerList.forall_mem_updAt Order.id db.orders i _ _ (fun o ho => ho) h5

theorem WF_updateOrderApprovalStatus (db : DB) (i : Nat) (st : ApprovalStatus)
    (hwf : WF db) : WF (Storage.updateOrderApprovalStatus db i st) := by
  unfold WF at hwf ⊢
  obtain ⟨h1, h2, h3, h4, h5, h6⟩ := hwf
  have e4 : (Storage.updateOrderApprovalStatus db i st).orders.map Order.id =
      db.orders.map Order.id :=
    LedgerList.map_updAt Order.id db.orders i
      (fun o => { o with approvalStatus := st }) Order.id (fun o => rfl)
  refine ⟨h1, h2, h3, by rw [e4]; exact h4, ?_, h6⟩
  exact LedgerList.forall_mem_updAt Order.id db.orders i _ _ (fun o ho => ho) h5

theorem WF_createOrder (db : DB) (s x : Nat) (n p : Int) (hwf : WF db) :
    WF (Storage.createOrder db s x n p).1 := by
  unfold WF at hwf ⊢
  obtain ⟨h1, h2, h3, h4, h5, h6⟩ := hwf
  refine ⟨h1, h2, h3, ?_, ?_, h6⟩
  · refine LedgerList.nodup_map_append_notmem Order.id db.orders _ h4 ?_
    intro o ho
    exact Nat.ne_of_lt (h5 o ho)
  · intro o ho
    have ho2 : o ∈ db.orders ++
        [(⟨db.nextOrderId, s, none, x, n, p, OrderStatus.OPEN,
          ApprovalStatus.PENDING⟩ : Order)] := ho
    rw [List.mem_append] at ho2
    rcases ho2 with ho2 | ho2
    · exact Nat.lt_succ_of_lt (h5 o ho2)
    · rw [List.mem_singleton] at ho2
      subst ho2
      exact Nat.lt_succ_self _

theorem WF_createTransfer (db : DB) (tr : Transfer) (hwf : WF db) :
    WF (Storage.createTransfer db tr) := hwf

theorem WF_createPriceHistory (db : DB) (x : Nat) (p v : Int) (o : Option Nat)
    (hwf : WF db) : WF (Storage.createPriceHistory db x p v o) := hwf

/-- Invariant glue for operations that rebalance remainingSupply of one
asset by the token-sum delta. -/
theorem escrowSumInv_step_supply {db db2 : DB} {aid : Nat} {asset : Asset}
    (dtok : Int) {r : Int}
    (hndA : (db.assets.map Asset.id).Nodup)
    (ha : Storage.getAsset db aid = some asset)
    (hassets : db2.assets = (Storage.updateAssetRemainingSupply db aid r).assets)
    (hsum : ∀ a, sumTokens db2 a = sumTokens db a + (if aid == a then dtok else 0))
    (hesc : ∀ a, openEscrow db2 a = openEscrow db a)
    (hr : r = asset.remainingSupply - dtok)
    (hinv : escrowSumInv db) : escrowSumInv db2 := by
  intro a' ha'
  rw [hassets] at ha'
  have ha'2 : a' ∈ db.assets.map
      (fun x => if x.id == aid then { x with remainingSupply := r } else x) := ha'
  obtain ⟨a0, ha0, heq⟩ := List.mem_map.mp ha'2
  obtain ⟨hamem, haid⟩ := getAsset_mem ha
  by_cases hid : a0.id = aid
  · have ha0eq : a0 = asset :=
      List.inj_on_of_nodup_map hndA ha0 hamem (by rw [hid, haid])
    subst ha0eq
    rw [if_pos (by simp [hid])] at heq
    subst heq
    have hgoal := hinv a0 ha0
    rw [hsum, hesc]
    simp only []
    rw [hid, hr]
    rw [hid] at hgoal
    simp only [beq_self_eq_true, if_true]
    omega
  · rw [if_neg (by simp [hid])] at heq
    subst heq
    have hgoal := hinv a0 ha0
    rw [hsum, hesc]
    rw [if_neg (by simp; intro hc; exact hid hc.symm)]
    omega

/-- Invariant glue for operations that leave the assets table alone and
preserve tokens + escrow per asset. -/
theorem escrowSumInv_step_orders {db db2 : DB}
    (hassets : db2.assets = db.assets)
    (hsum : ∀ a, sumTokens db2 a + openEscrow db2 a = sumTokens db a + openEscrow db a)
    (hinv : escrowSumInv db) : escrowSumInv db2 := by
  intro a' ha'
  rw [hassets] at ha'
  have hgoal := hinv a' ha'
  have h2 := hsum a'.id
  omega

theorem inv_mint (db db2 : DB) (aid uid : Nat) (n : Int)
    (hwf : WF db) (hinv : escrowSumInv db) (h : mint db aid uid n = .ok db2) :
    WF db2 ∧ escrowSumInv db2 := by
  unfold mint at h
  by_cases hn : n ≤ 0
  · rw [if_pos hn] at h; cases h
  · rw [if_neg hn] at h
    cases ha : Storage.getAsset db aid with
    | none => rw [ha] at h; cases h
    | some asset =>
      rw [ha] at h
      cases hu : Storage.getUser db uid with
      | none => rw [hu] at h; cases h
      | some user =>
        rw [hu] at h
        simp only [] at h
        by_cases hk : user.kycStatus = KycStatus.APPROVED
        · by_cases hs : asset.remainingSupply < n
          · rw [if_neg (by simp [hk]), if_pos hs] at h; cases h
          · rw [if_neg (by simp [hk]), if_neg hs] at h
            cases hT : Storage.getTokenByAssetAndUser db aid uid with
            | some t0 =>
              rw [hT] at h
              simp only [Except.ok.injEq] at h
              subst h
              obtain ⟨htmem, htaid, htuid⟩ := getTBAU_mem hT
              constructor
              · exact WF_createTransfer _ _
                  (WF_updateAssetRemainingSupply _ _ _
                    (WF_updateTokenCostBasis _ _ _ _ hwf))
              · refine escrowSumInv_step_supply n hwf.2.2.2.2.2 ha rfl ?_ (fun x => rfl)
                  rfl hinv
                intro x
                have e := sumTokens_updateTokenCostBasis hwf.1 htmem rfl
                  (t0.costBasis + asset.navPrice * n) (t0.amount + n) x
                have e2 : sumTokens (Storage.createTransfer
                    (Storage.updateAssetRemainingSupply
                      (Storage.updateTokenCostBasis db t0.id
                        (t0.costBasis + asset.navPrice * n) (t0.amount + n))
                      aid (asset.remainingSupply - n))
                    ⟨aid, none, some uid, n, TransferReason.MINT⟩) x =
                    sumTokens (Storage.updateTokenCostBasis db t0.id
                      (t0.costBasis + asset.navPrice * n) (t0.amount + n)) x := rfl
                rw [e2, e, htaid]
                split_ifs <;> ring
            | none =>
              rw [hT] at h
              simp only [Except.ok.injEq] at h
              subst h
              constructor
              · exact WF_createTransfer _ _
                  (WF_updateAssetRemainingSupply _ _ _
                    (WF_createToken _ _ _ _ _ hT hwf))
              · refine escrowSumInv_step_supply n hwf.2.2.2.2.2 ha rfl ?_ (fun x => rfl)
                  rfl hinv
                intro x
                have e := sumTokens_createToken db aid uid n (asset.navPrice * n) x
                have e2 : sumTokens (Storage.createTransfer
                    (Storage.updateAssetRemainingSupply
                      (Storage.createToken db aid uid n (asset.navPrice * n))
                      aid (asset.remainingSupply - n))
                    ⟨aid, none, some uid, n, TransferReason.MINT⟩) x =
                    sumTokens (Storage.createToken db aid uid n (asset.navPrice * n)) x := rfl
                rw [e2, e]
        · rw [if_pos (by simp [hk])] at h; cases h

theorem inv_revoke (db db2 : DB) (tid : Nat) (n : Int)
    (hwf : WF db) (hinv : escrowSumInv db) (h : revoke db tid n = .ok db2) :
    WF db2 ∧ escrowSumInv db2 := by
  unfold revoke at h
  by_cases hn : n ≤ 0
  · rw [if_pos hn] at h; cases h
  · rw [if_neg hn] at h
    cases ht : Storage.getToken db tid with
    | none => rw [ht] at h; cases h
    | some t0 =>
      rw [ht] at h
      simp only [] at h
      by_cases hlt : t0.amount < n
      · rw [if_pos hlt] at h; cases h
      · rw [if_neg hlt] at h
        cases hA : Storage.getAsset db t0.assetId with
        | none => rw [hA] at h; cases h
        | some asset =>
          rw [hA] at h
          simp only [] at h
          obtain ⟨htmem, htid⟩ := getToken_mem ht
          by_cases hamt : t0.amount = n
          · rw [if_pos hamt] at h
            simp only [Except.ok.injEq] at h
            subst h
            constructor
            · exact WF_createTransfer _ _
                (WF_updateAssetRemainingSupply _ _ _ (WF_deleteToken _ _ hwf))
            · refine escrowSumInv_step_supply (-n) hwf.2.2.2.2.2 hA rfl ?_
                (fun x => rfl) (by ring) hinv
              intro x
              have e := sumTokens_deleteToken hwf.1 htmem htid x
              have e2 : sumTokens (Storage.createTransfer
                  (Storage.updateAssetRemainingSupply (Storage.deleteToken db tid)
                    t0.assetId (asset.remainingSupply + n))
                  ⟨t0.assetId, some t0.ownerId, none, n, TransferReason.ADMIN_REVOKE⟩) x =
                  sumTokens (Storage.deleteToken db tid) x := rfl
              rw [e2, e, hamt]
              split_ifs <;> ring
          · rw [if_neg hamt] at h
            simp only [Except.ok.injEq] at h
            subst h
            constructor
            · exact WF_createTransfer _ _
                (WF_updateAssetRemainingSupply _ _ _ (WF_updateTokenAmount _ _ _ hwf))
            · refine escrowSumInv_step_supply (-n) hwf.2.2.2.2.2 hA rfl ?_
                (fun x => rfl) (by ring) hinv
              intro x
              have e := sumTokens_updateTokenAmount hwf.1 htmem htid (t0.amount - n) x
              have e2 : sumTokens (Storage.createTransfer
                  (Storage.updateAssetRemainingSupply
                    (Storage.updateTokenAmount db tid (t0.amount - n))
                    t0.assetId (asset.remainingSupply + n))
                  ⟨t0.assetId, some t0.ownerId, none, n, TransferReason.ADMIN_REVOKE⟩) x =
                  sumTokens (Storage.updateTokenAmount db tid (t0.amount - n)) x := rfl
              rw [e2, e]
              split_ifs <;> ring

theorem inv_createOrder (db db2 : DB) (caller aid : Nat) (n p : Int)
    (hwf : WF db) (hinv : escrowSumInv db)
    (h : (createOrder db caller aid n p).map Prod.fst = .ok db2) :
    WF db2 ∧ escrowSumInv db2 := by
  unfold createOrder at h
  cases hM : kycApprovedMiddleware db caller with
  | error e => rw [hM] at h; cases h
  | ok caller0 =>
    rw [hM] at h
    simp only [] at h
    by_cases hz : n = 0 ∨ p = 0
    · rw [if_pos hz] at h; cases h
    · rw [if_neg hz] at h
      cases hT : Storage.getTokenByAssetAndUser db aid caller with
      | none => rw [hT] at h; cases h
      | some t0 =>
        rw [hT] at h
        simp only [] at h
        by_cases hlt : t0.amount < n
        · rw [if_pos hlt] at h; cases h
        · rw [if_neg hlt] at h
          simp only [Except.map, Except.ok.injEq] at h
          subst h
          obtain ⟨htmem, htaid, htuid⟩ := getTBAU_mem hT
          constructor
          · exact WF_createOrder _ _ _ _ _ (WF_updateTokenCostBasis _ _ _ _ hwf)
          · refine escrowSumInv_step_orders ?_ ?_ hinv
            · rfl
            intro x
            have e := sumTokens_updateTokenCostBasis hwf.1 htmem rfl
              (escrowCostBasis t0.costBasis t0.amount n) (t0.amount - n) x
            have es : sumTokens (Storage.createOrder
                (Storage.updateTokenCostBasis db t0.id
                  (escrowCostBasis t0.costBasis t0.amount n) (t0.amount - n))
                caller aid n p).1 x =
                sumTokens (Storage.updateTokenCostBasis db t0.id
                  (escrowCostBasis t0.costBasis t0.amount n) (t0.amount - n)) x := rfl
            have ee := openEscrow_createOrder
              (Storage.updateTokenCostBasis db t0.id
                (escrowCostBasis t0.costBasis t0.amount n) (t0.amount - n))
              caller aid n p x
            have ee2 : openEscrow (Storage.updateTokenCostBasis db t0.id
                (escrowCostBasis t0.costBasis t0.amount n) (t0.amount - n)) x =
                openEscrow db x := rfl
            rw [es, e, ee, ee2, htaid]
            split_ifs <;> ring

theorem inv_approveOrder (db db2 : DB) (oid : Nat)
    (hwf : WF db) (hinv : escrowSumInv db) (h : approveOrder db oid = .ok db2) :
    WF db2 ∧ escrowSumInv db2 := by
  unfold approveOrder at h
  cases ho : Storage.getOrder db oid with
  | none => rw [ho] at h; cases h
  | some o =>
    rw [ho] at h
    simp only [] at h
    by_cases hst : o.status = OrderStatus.OPEN
    · rw [if_neg (by simp [hst])] at h
      simp only [Except.ok.injEq] at h
      subst h
      constructor
      · exact WF_updateOrderApprovalStatus _ _ _ hwf
      · refine escrowSumInv_step_orders ?_ ?_ hinv
        · rfl
        intro x
        rw [openEscrow_updateOrderApprovalStatus]
        rfl
    · rw [if_pos (by simp [hst])] at h; cases h

theorem inv_fill (db db2 : DB) (buyer oid : Nat)
    (hwf : WF db) (hinv : escrowSumInv db) (h : fillOrder db buyer oid = .ok db2) :
    WF db2 ∧ escrowSumInv db2 := by
  unfold fillOrder at h
  cases hM : kycApprovedMiddleware db buyer with
  | error e => rw [hM] at h; cases h
  | ok buyer0 =>
    rw [hM] at h
    cases ho : Storage.getOrder db oid with
    | none => rw [ho] at h; cases h
    | some o =>
      rw [ho] at h
      simp only [] at h
      by_cases hst : o.status = OrderStatus.OPEN
      · rw [if_neg (by simp [hst])] at h
        by_cases hap : o.approvalStatus = ApprovalStatus.APPROVED
        · rw [if_neg (by simp [hap])] at h
          by_cases hself : o.sellerId = buyer
          · rw [if_pos hself] at h; cases h
          · rw [if_neg hself] at h
            cases hS : Storage.getUser db o.sellerId with
            | none => rw [hS] at h; cases h
            | some seller =>
              rw [hS] at h
              simp only [] at h
              by_cases hel : seller.kycStatus ≠ KycStatus.APPROVED ∨ seller.isFrozen = true
              · rw [if_pos (by simpa using hel)] at h; cases h
              · rw [if_neg (by simpa using hel)] at h
                have homem := (getOrder_mem ho).1
                cases hT : Storage.getTokenByAssetAndUser db o.assetId buyer with
                | some bt =>
                  rw [hT] at h
                  simp only [Except.ok.injEq] at h
                  subst h
                  obtain ⟨hbmem, hbaid, hbuid⟩ := getTBAU_mem hT
                  constructor
                  · exact WF_createPriceHistory _ _ _ _ _
                      (WF_createTransfer _ _
                        (WF_updateOrderStatus _ _ _ _
                          (WF_updateTokenCostBasis _ _ _ _ hwf)))
                  · refine escrowSumInv_step_orders ?_ ?_ hinv
                    · rfl
                    intro x
                    have eo : openEscrow (Storage.updateOrderStatus
                        (Storage.updateTokenCostBasis db bt.id
                          (bt.costBasis + o.pricePerToken * o.tokenAmount)
                          (bt.amount + o.tokenAmount)) o.id OrderStatus.FILLED
                        (some buyer)) x =
                        openEscrow (Storage.updateOrderStatus db o.id
                          OrderStatus.FILLED (some buyer)) x := rfl
                    rw [sumTokens_createPriceHistory, sumTokens_createTransfer,
                      sumTokens_updateOrderStatus,
                      sumTokens_updateTokenCostBasis hwf.1 hbmem rfl
                        (bt.costBasis + o.pricePerToken * o.tokenAmount)
                        (bt.amount + o.tokenAmount) x,
                      openEscrow_createPriceHistory, openEscrow_createTransfer, eo,
                      openEscrow_updateOrderStatus_nonopen hwf.2.2.2.1 homem rfl
                        (by simp) (some buyer) x,
                      hbaid, hst]
                    simp only [beq_self_eq_true, Bool.and_true]
                    split_ifs <;> ring
                | none =>
                  rw [hT] at h
                  simp only [Except.ok.injEq] at h
                  subst h
                  constructor
                  · exact WF_createPriceHistory _ _ _ _ _
                      (WF_createTransfer _ _
                        (WF_updateOrderStatus _ _ _ _
                          (WF_createToken _ _ _ _ _ hT hwf)))
                  · refine escrowSumInv_step_orders ?_ ?_ hinv
                    · rfl
                    intro x
                    have eo : openEscrow (Storage.updateOrderStatus
                        (Storage.createToken db o.assetId buyer o.tokenAmount
                          (o.pricePerToken * o.tokenAmount)) o.id OrderStatus.FILLED
                        (some buyer)) x =
                        openEscrow (Storage.updateOrderStatus db o.id
                          OrderStatus.FILLED (some buyer)) x := rfl
                    rw [sumTokens_createPriceHistory, sumTokens_createTransfer,
                      sumTokens_updateOrderStatus,
                      sumTokens_createToken,
                      openEscrow_createPriceHistory, openEscrow_createTransfer, eo,
                      openEscrow_updateOrderStatus_nonopen hwf.2.2.2.1 homem rfl
                        (by simp) (some buyer) x,
                      hst]
                    simp only [beq_self_eq_true, Bool.and_true]
                    split_ifs <;> ring
        · rw [if_pos (by simp [hap])] at h; cases h
      · rw [if_pos (by simp [hst])] at h; cases h

theorem inv_cancel (db db2 : DB) (caller oid : Nat)
    (hwf : WF db) (hinv : escrowSumInv db) (h : cancelOrder db caller oid = .ok db2) :
    WF db2 ∧ escrowSumInv db2 := by
  unfold cancelOrder at h
  cases hM : kycApprovedMiddleware db caller with
  | error e => rw [hM] at h; cases h
  | ok u =>
    rw [hM] at h
    cases ho : Storage.getOrder db oid with
    | none => rw [ho] at h; cases h
    | some o =>
      rw [ho] at h
      simp only [] at h
      by_cases hst : o.status = OrderStatus.OPEN
      · by_cases hsell : o.sellerId = caller
        · rw [if_neg (by simp [hst]), if_neg (by simp [hsell])] at h
          have homem := (getOrder_mem ho).1
          cases hA : Storage.getAsset db o.assetId with
          | some asset =>
            rw [hA] at h
            cases hT : Storage.getTokenByAssetAndUser db o.assetId caller with
            | some t0 =>
              rw [hT] at h
              simp only [Except.ok.injEq] at h
              subst h
              obtain ⟨htmem, htaid, htuid⟩ := getTBAU_mem hT
              constructor
              · exact WF_updateOrderStatus _ _ _ _
                  (WF_updateTokenCostBasis _ _ _ _ hwf)
              · refine escrowSumInv_step_orders ?_ ?_ hinv
                · rfl
                intro x
                have eo : openEscrow (Storage.updateOrderStatus
                    (Storage.updateTokenCostBasis db t0.id
                      (t0.costBasis + asset.navPrice * o.tokenAmount)
                      (t0.amount + o.tokenAmount)) o.id OrderStatus.CANCELLED none) x =
                    openEscrow (Storage.updateOrderStatus db o.id
                      OrderStatus.CANCELLED none) x := rfl
                rw [sumTokens_updateOrderStatus,
                  sumTokens_updateTokenCostBasis hwf.1 htmem rfl
                    (t0.costBasis + asset.navPrice * o.tokenAmount)
                    (t0.amount + o.tokenAmount) x,
                  eo,
                  openEscrow_updateOrderStatus_nonopen hwf.2.2.2.1 homem rfl
                    (by simp) none x,
                  htaid, hst]
                simp only [beq_self_eq_true, Bool.and_true]
                split_ifs <;> ring
            | none =>
              rw [hT] at h
              simp only [Except.ok.injEq] at h
              subst h
              constructor
              · exact WF_updateOrderStatus _ _ _ _
                  (WF_createToken _ _ _ _ _ hT hwf)
              · refine escrowSumInv_step_orders ?_ ?_ hinv
                · rfl
                intro x
                have eo : openEscrow (Storage.updateOrderStatus
                    (Storage.createToken db o.assetId caller o.tokenAmount
                      (asset.navPrice * o.tokenAmount)) o.id OrderStatus.CANCELLED none) x =
                    openEscrow (Storage.updateOrderStatus db o.id
                      OrderStatus.CANCELLED none) x := rfl
                rw [sumTokens_updateOrderStatus, sumTokens_createToken,
                  eo,
                  openEscrow_updateOrderStatus_nonopen hwf.2.2.2.1 homem rfl
                    (by simp) none x,
                  hst]
                simp only [beq_self_eq_true, Bool.and_true]
                split_ifs <;> ring
          | none =>
            rw [hA] at h
            cases hT : Storage.getTokenByAssetAndUser db o.assetId caller with
            | some t0 =>
              rw [hT] at h
              simp only [Except.ok.injEq] at h
              subst h
              obtain ⟨htmem, htaid, htuid⟩ := getTBAU_mem hT
              constructor
              · exact WF_updateOrderStatus _ _ _ _
                  (WF_updateTokenCostBasis _ _ _ _ hwf)
              · refine escrowSumInv_step_orders ?_ ?_ hinv
                · rfl
                intro x
                have eo : openEscrow (Storage.updateOrderStatus
                    (Storage.updateTokenCostBasis db t0.id
                      (t0.costBasis + 0 * o.tokenAmount)
                      (t0.amount + o.tokenAmount)) o.id OrderStatus.CANCELLED none) x =
                    openEscrow (Storage.updateOrderStatus db o.id
                      OrderStatus.CANCELLED none) x := rfl
                rw [sumTokens_updateOrderStatus,
                  sumTokens_updateTokenCostBasis hwf.1 htmem rfl
                    (t0.costBasis + 0 * o.tokenAmount)
                    (t0.amount + o.tokenAmount) x,
                  eo,
                  openEscrow_updateOrderStatus_nonopen hwf.2.2.2.1 homem rfl
                    (by simp) none x,
                  htaid, hst]
                simp only [beq_self_eq_true, Bool.and_true]
                split_ifs <;> ring
            | none =>
              rw [hT] at h
              simp only [Except.ok.injEq] at h
              subst h
              constructor
              · exact WF_updateOrderStatus _ _ _ _
                  (WF_createToken _ _ _ _ _ hT hwf)
              · refine escrowSumInv_step_orders ?_ ?_ hinv
                · rfl
                intro x
                have eo : openEscrow (Storage.updateOrderStatus
                    (Storage.createToken db o.assetId caller o.tokenAmount
                      (0 * o.tokenAmount)) o.id OrderStatus.CANCELLED none) x =
                    openEscrow (Storage.updateOrderStatus db o.id
                      OrderStatus.CANCELLED none) x := rfl
                rw [sumTokens_updateOrderStatus, sumTokens_createToken,
                  eo,
                  openEscrow_updateOrderStatus_nonopen hwf.2.2.2.1 homem rfl
                    (by simp) none x,
                  hst]
                simp only [beq_self_eq_true, Bool.and_true]
                split_ifs <;> ring
        · rw [if_neg (by simp [hst]), if_pos (by simp [hsell])] at h
          cases h
      · rw [if_pos (by simp [hst])] at h
        cases h

theorem inv_reject (db db2 : DB) (oid : Nat)
    (hwf : WF db) (hinv : escrowSumInv db) (h : rejectOrder db oid = .ok db2) :
    WF db2 ∧ escrowSumInv db2 := by
  unfold rejectOrder at h
  cases ho : Storage.getOrder db oid with
  | none => rw [ho] at h; cases h
  | some o =>
    rw [ho] at h
    simp only [] at h
    by_cases hst : o.status = OrderStatus.OPEN
    · rw [if_neg (by simp [hst])] at h
      rw [getTBAU_updateOrderStatus, getTBAU_updateOrderApprovalStatus] at h
      have homem := (getOrder_mem ho).1
      have hwfmid : WF (Storage.updateOrderStatus
          (Storage.updateOrderApprovalStatus db o.id ApprovalStatus.REJECTED)
          o.id OrderStatus.CANCELLED none) :=
        WF_updateOrderStatus _ _ _ _ (WF_updateOrderApprovalStatus _ _ _ hwf)
      have hndA : ((Storage.updateOrderApprovalStatus db o.id
          ApprovalStatus.REJECTED).orders.map Order.id).Nodup :=
        (WF_updateOrderApprovalStatus db o.id ApprovalStatus.REJECTED hwf).2.2.2.1
      have hoA : ({ o with approvalStatus := ApprovalStatus.REJECTED } : Order) ∈
          (Storage.updateOrderApprovalStatus db o.id ApprovalStatus.REJECTED).orders := by
        have hmap := List.mem_map_of_mem
          (fun x => if x.id == o.id then
            { x with approvalStatus := ApprovalStatus.REJECTED } else x) homem
        have hmap2 : (if o.id == o.id then
            ({ o with approvalStatus := ApprovalStatus.REJECTED } : Order) else o) ∈
            (Storage.updateOrderApprovalStatus db o.id ApprovalStatus.REJECTED).orders :=
          hmap
        have hif : (if o.id == o.id then
            ({ o with approvalStatus := ApprovalStatus.REJECTED } : Order) else o) =
            { o with approvalStatus := ApprovalStatus.REJECTED } := by simp
        rw [hif] at hmap2
        exact hmap2
      have escA : ∀ x, openEscrow (Storage.updateOrderStatus
          (Storage.updateOrderApprovalStatus db o.id ApprovalStatus.REJECTED)
          o.id OrderStatus.CANCELLED none) x =
          openEscrow db x -
            (if o.assetId == x && o.status == OrderStatus.OPEN
              then o.tokenAmount else 0) := by
        intro x
        rw [openEscrow_updateOrderStatus_nonopen hndA hoA rfl (by simp) none x,
          openEscrow_updateOrderApprovalStatus]
      cases hA : Storage.getAsset db o.assetId with
      | some asset =>
        rw [show Storage.getAsset (Storage.updateOrderStatus
            (Storage.updateOrderApprovalStatus db o.id ApprovalStatus.REJECTED)
            o.id OrderStatus.CANCELLED none) o.assetId =
            Storage.getAsset db o.assetId from rfl, hA] at h
        cases hT : Storage.getTokenByAssetAndUser db o.assetId o.sellerId with
        | some t0 =>
          rw [hT] at h
          simp only [Except.ok.injEq] at h
          subst h
          obtain ⟨htmem, htaid, htuid⟩ := getTBAU_mem hT
          constructor
          · exact WF_updateTokenCostBasis _ _ _ _ hwfmid
          · refine escrowSumInv_step_orders ?_ ?_ hinv
            · rfl
            intro x
            have es : sumTokens (Storage.updateTokenCostBasis
                (Storage.updateOrderStatus
                  (Storage.updateOrderApprovalStatus db o.id ApprovalStatus.REJECTED)
                  o.id OrderStatus.CANCELLED none) t0.id
                (t0.costBasis + asset.navPrice * o.tokenAmount)
                (t0.amount + o.tokenAmount)) x =
                sumTokens (Storage.updateTokenCostBasis db t0.id
                  (t0.costBasis + asset.navPrice * o.tokenAmount)
                  (t0.amount + o.tokenAmount)) x := rfl
            have eo : openEscrow (Storage.updateTokenCostBasis
                (Storage.updateOrderStatus
                  (Storage.updateOrderApprovalStatus db o.id ApprovalStatus.REJECTED)
                  o.id OrderStatus.CANCELLED none) t0.id
                (t0.costBasis + asset.navPrice * o.tokenAmount)
                (t0.amount + o.tokenAmount)) x =
                openEscrow (Storage.updateOrderStatus
                  (Storage.updateOrderApprovalStatus db o.id ApprovalStatus.REJECTED)
                  o.id OrderStatus.CANCELLED none) x := rfl
            rw [es, eo, escA x,
              sumTokens_updateTokenCostBasis hwf.1 htmem rfl
                (t0.costBasis + asset.navPrice * o.tokenAmount)
                (t0.amount + o.tokenAmount) x,
              htaid, hst]
            simp only [beq_self_eq_true, Bool.and_true]
            split_ifs <;> ring
        | none =>
          rw [hT] at h
          simp only [Except.ok.injEq] at h
          subst h
          constructor
          · exact WF_createToken _ _ _ _ _ hT hwfmid
          · refine escrowSumInv_step_orders ?_ ?_ hinv
            · rfl
            intro x
            have es : sumTokens (Storage.createToken
                (Storage.updateOrderStatus
                  (Storage.updateOrderApprovalStatus db o.id ApprovalStatus.REJECTED)
                  o.id OrderStatus.CANCELLED none) o.assetId o.sellerId o.tokenAmount
                (asset.navPrice * o.tokenAmount)) x =
                sumTokens (Storage.createToken db o.assetId o.sellerId o.tokenAmount
                  (asset.navPrice * o.tokenAmount)) x := rfl
            have eo : openEscrow (Storage.createToken
                (Storage.updateOrderStatus
                  (Storage.updateOrderApprovalStatus db o.id ApprovalStatus.REJECTED)
                  o.id OrderStatus.CANCELLED none) o.assetId o.sellerId o.tokenAmount
                (asset.navPrice * o.tokenAmount)) x =
                openEscrow (Storage.updateOrderStatus
                  (Storage.updateOrderApprovalStatus db o.id ApprovalStatus.REJECTED)
                  o.id OrderStatus.CANCELLED none) x := rfl
            rw [es, eo, escA x, sumTokens_createToken, hst]
            simp only [beq_self_eq_true, Bool.and_true]
            split_ifs <;> ring
      | none =>
        rw [show Storage.getAsset (Storage.updateOrderStatus
            (Storage.updateOrderApprovalStatus db o.id ApprovalStatus.REJECTED)
            o.id OrderStatus.CANCELLED none) o.assetId =
            Storage.getAsset db o.assetId from rfl, hA] at h
        cases hT : Storage.getTokenByAssetAndUser db o.assetId o.sellerId with
        | some t0 =>
          rw [hT] at h
          simp only [Except.ok.injEq] at h
          subst h
          obtain ⟨htmem, htaid, htuid⟩ := getTBAU_mem hT
          constructor
          · exact WF_updateTokenCostBasis _ _ _ _ hwfmid
          · refine escrowSumInv_step_orders ?_ ?_ hinv
            · rfl
            intro x
            have es : sumTokens (Storage.updateTokenCostBasis
                (Storage.updateOrderStatus
                  (Storage.updateOrderApprovalStatus db o.id ApprovalStatus.REJECTED)
                  o.id OrderStatus.CANCELLED none) t0.id
                (t0.costBasis + 0 * o.tokenAmount)
                (t0.amount + o.tokenAmount)) x =
                sumTokens (Storage.updateTokenCostBasis db t0.id
                  (t0.costBasis + 0 * o.tokenAmount)
                  (t0.amount + o.tokenAmount)) x := rfl
            have eo : openEscrow (Storage.updateTokenCostBasis
                (Storage.updateOrderStatus
                  (Storage.updateOrderApprovalStatus db o.id ApprovalStatus.REJECTED)
                  o.id OrderStatus.CANCELLED none) t0.id
                (t0.costBasis + 0 * o.tokenAmount)
                (t0.amount + o.tokenAmount)) x =
                openEscrow (Storage.updateOrderStatus
                  (Storage.updateOrderApprovalStatus db o.id ApprovalStatus.REJECTED)
                  o.id OrderStatus.CANCELLED none) x := rfl
            rw [es, eo, escA x,
              sumTokens_updateTokenCostBasis hwf.1 htmem rfl
                (t0.costBasis + 0 * o.tokenAmount)
                (t0.amount + o.tokenAmount) x,
              htaid, hst]
            simp only [beq_self_eq_true, Bool.and_true]
            split_ifs <;> ring
        | none =>
          rw [hT] at h
          simp only [Except.ok.injEq] at h
          subst h
          constructor
          · exact WF_createToken _ _ _ _ _ hT hwfmid
          · refine escrowSumInv_step_orders ?_ ?_ hinv
            · rfl
            intro x
            have es : sumTokens (Storage.createToken
                (Storage.updateOrderStatus
                  (Storage.updateOrderApprovalStatus db o.id ApprovalStatus.REJECTED)
                  o.id OrderStatus.CANCELLED none) o.assetId o.sellerId o.tokenAmount
                (0 * o.tokenAmount)) x =
                sumTokens (Storage.createToken db o.assetId o.sellerId o.tokenAmount
                  (0 * o.tokenAmount)) x := rfl
            have eo : openEscrow (Storage.createToken
                (Storage.updateOrderStatus
                  (Storage.updateOrderApprovalStatus db o.id ApprovalStatus.REJECTED)
                  o.id OrderStatus.CANCELLED none) o.assetId o.sellerId o.tokenAmount
                (0 * o.tokenAmount)) x =
                openEscrow (Storage.updateOrderStatus
                  (Storage.updateOrderApprovalStatus db o.id ApprovalStatus.REJECTED)
                  o.id OrderStatus.CANCELLED none) x := rfl
            rw [es, eo, escA x, sumTokens_createToken, hst]
            simp only [beq_self_eq_true, Bool.and_true]
            split_ifs <;> ring
    · rw [if_pos (by simp [hst])] at h
      cases h

theorem inv_adminSet (db db2 : DB) (tid : Nat) (n : Int) (r : Option TransferReason)
    (hwf : WF db) (hinv : escrowSumInv db)
    (h : adminSetTokenAmount db tid n r = .ok db2) :
    WF db2 ∧ escrowSumInv db2 := by
  unfold adminSetTokenAmount at h
  by_cases hneg : n < 0
  · rw [if_pos hneg] at h; cases h
  · rw [if_neg hneg] at h
    cases ht : Storage.getToken db tid with
    | none => rw [ht] at h; cases h
    | some t0 =>
      rw [ht] at h
      simp only [] at h
      cases hA : Storage.getAsset db t0.assetId with
      | none => rw [hA] at h; cases h
      | some asset =>
        rw [hA] at h
        simp only [] at h
        obtain ⟨htmem, htid⟩ := getToken_mem ht
        have haid : asset.id = t0.assetId := (getAsset_mem hA).2
        by_cases hg : 0 < n - t0.amount ∧ asset.remainingSupply < n - t0.amount
        · rw [if_pos hg] at h; cases h
        · rw [if_neg hg] at h
          by_cases hz : n = 0
          · subst hz
            rw [if_pos rfl] at h
            by_cases hd : 0 - t0.amount ≠ 0
            · rw [if_pos hd] at h
              simp only [Except.ok.injEq] at h
              subst h
              constructor
              · exact WF_createTransfer _ _
                  (WF_updateAssetRemainingSupply _ _ _ (WF_deleteToken _ _ hwf))
              · refine escrowSumInv_step_supply (0 - t0.amount) hwf.2.2.2.2.2 hA
                  ?_ ?_ (fun x => rfl) rfl hinv
                · rw [haid]
                  rfl
                intro x
                rw [sumTokens_createTransfer, sumTokens_updateAssetRemainingSupply,
                  sumTokens_deleteToken hwf.1 htmem htid x]
                split_ifs <;> ring
            · rw [if_neg hd] at h
              simp only [Except.ok.injEq] at h
              subst h
              constructor
              · exact WF_updateAssetRemainingSupply _ _ _ (WF_deleteToken _ _ hwf)
              · refine escrowSumInv_step_supply (0 - t0.amount) hwf.2.2.2.2.2 hA
                  ?_ ?_ (fun x => rfl) rfl hinv
                · rw [haid]
                  rfl
                intro x
                rw [sumTokens_updateAssetRemainingSupply,
                  sumTokens_deleteToken hwf.1 htmem htid x]
                split_ifs <;> ring
          · rw [if_neg hz] at h
            by_cases hd : n - t0.amount ≠ 0
            · rw [if_pos hd] at h
              simp only [Except.ok.injEq] at h
              subst h
              constructor
              · exact WF_createTransfer _ _
                  (WF_updateAssetRemainingSupply _ _ _ (WF_updateTokenAmount _ _ _ hwf))
              · refine escrowSumInv_step_supply (n - t0.amount) hwf.2.2.2.2.2 hA
                  ?_ ?_ (fun x => rfl) rfl hinv
                · rw [haid]
                  rfl
                intro x
                rw [sumTokens_createTransfer, sumTokens_updateAssetRemainingSupply,
                  sumTokens_updateTokenAmount hwf.1 htmem htid n x]
            · rw [if_neg hd] at h
              simp only [Except.ok.injEq] at h
              subst h
              constructor
              · exact WF_updateAssetRemainingSupply _ _ _ (WF_updateTokenAmount _ _ _ hwf)
              · refine escrowSumInv_step_supply (n - t0.amount) hwf.2.2.2.2.2 hA
                  ?_ ?_ (fun x => rfl) rfl hinv
                · rw [haid]
                  rfl
                intro x
                rw [sumTokens_updateAssetRemainingSupply,
                  sumTokens_updateTokenAmount hwf.1 htmem htid n x]

/-- Claim C1 (amended): the spec's sum rule extended by the escrow
term — for every asset, Σ(token.amount) + Σ(tokenAmount of its OPEN
orders) + remainingSupply = totalSupply — together with structural
well-formedness, is preserved by every successful mint, revoke,
order-create, trade-fill, order-cancel, admin approve/reject, and
admin amount adjustment. The rule exactly as the spec states it (with
no escrow term) is false after order-create. -/
theorem escrow_sum_invariant_preserved (op : Op) (db db2 : DB)
    (hwf : WF db) (hinv : escrowSumInv db) (h : applyOp op db = .ok db2) :
    WF db2 ∧ escrowSumInv db2 := by
  cases op with
  | mint a u n => exact inv_mint db db2 a u n hwf hinv h
  | revoke t n => exact inv_revoke db db2 t n hwf hinv h
  | createOrder c a n p => exact inv_createOrder db db2 c a n p hwf hinv h
  | fillOrder b o => exact inv_fill db db2 b o hwf hinv h
  | cancelOrder c o => exact inv_cancel db db2 c o hwf hinv h
  | approveOrder o => exact inv_approveOrder db db2 o hwf hinv h
  | rejectOrder o => exact inv_reject db db2 o hwf hinv h
  | adminSetAmount t n r => exact inv_adminSet db db2 t n r hwf hinv h

/-- Witness for the preserved invariant on a concrete order creation. -/
theorem escrow_sum_invariant_preserved_witness :
    WF dbSeedAfterOrder ∧ escrowSumInv dbSeedAfterOrder :=
  escrow_sum_invariant_preserved (Op.createOrder 1 1 20 500) dbSeed dbSeedAfterOrder
    (by decide) (by decide) (by decide)
